import Mathlib

/-!
Codenames game store.

A shallow embedding of `src/lib/stores/gameStore.js`: the game state document, the
serialisation helpers, the card-reveal resolution, clue submission, turn ending, game
initialisation and reset, together with the properties the specification states about them.

Modelling conventions.

* The Svelte writable and the `rooms.game_state` column of the one room under play are the
  two components `view` and `room` of a `World`; `game_history` is the list `history`.
  The room identifier is left out, since every operation touches one room only.
* A document reaches the remote table as JSON, which has no infinite number: what the table
  keeps, and hands back on `select`, is the image `toJson` of the document handed to
  `update`, in which `Infinity` has become `null`. Whether a write is accepted is an
  argument of each operation.
* JavaScript numbers that the store manipulates are integers or `Infinity`; the string
  `'Infinity'` used as a marker in serialised documents is the constructor `token`.
* `Math.random` is an oracle `rand`; the draw of loop iteration `i` is `rand i % (i + 1)`,
  which ranges over exactly the values `0..i` that `Math.floor(Math.random() * (i + 1))` can take.
* A call `sort(() => Math.random() - 0.5)` is an oracle that returns the array in the order the
  engine leaves it in; the properties assume it returns a permutation of its input.
-/

namespace Codenames

/-! ## Data model -/

/-- The two teams, the values taken by `currentTurn` and `winner`. -/
inductive Team where
  | red
  | blue
deriving DecidableEq, Repr

/-- The four card colours; `black` is the assassin. -/
inductive Color where
  | red
  | blue
  | neutral
  | black
deriving DecidableEq, Repr

/-- The colour string that names a team. -/
def Team.color : Team → Color
  | .red => .red
  | .blue => .blue

/-- The expression `currentTurn === 'red' ? 'blue' : 'red'`. -/
def Team.other (t : Team) : Team :=
  if t = .red then .blue else .red

/-- One card of the board. -/
structure Card where
  word : String
  color : Color
  revealed : Bool
deriving DecidableEq, Repr

/-- Values held by `guessesRemaining`: a number, `Infinity`, the string `'Infinity'`, or
`null`. -/
inductive Guesses where
  | finite (n : Int)
  | infinity
  | token
  | null
deriving DecidableEq, Repr

/-- The postfix decrement `guessesRemaining--`; the string `'Infinity'` is coerced to a number. -/
def Guesses.dec : Guesses → Guesses
  | .finite n => .finite (n - 1)
  | .infinity => .infinity
  | .token => .infinity
  | .null => .finite (-1)

/-- The comparison `guessesRemaining <= 0`; `null` compares as 0. -/
def Guesses.leZero : Guesses → Bool
  | .finite n => decide (n ≤ 0)
  | .infinity => false
  | .token => false
  | .null => true

/-- What `JSON.stringify` makes of the value: `Infinity` becomes `null`. -/
def Guesses.toJson : Guesses → Guesses
  | .infinity => .null
  | g => g

/-- The number of a clue: an integer, `Infinity`, or `null`. -/
inductive ClueNumber where
  | finite (n : Int)
  | infinity
  | null
deriving DecidableEq, Repr

/-- The expression `number + 1`; `null` counts as 0. -/
def ClueNumber.succ : ClueNumber → Guesses
  | .finite n => .finite (n + 1)
  | .infinity => .infinity
  | .null => .finite 1

/-- What `JSON.stringify` makes of the number: `Infinity` becomes `null`. -/
def ClueNumber.toJson : ClueNumber → ClueNumber
  | .infinity => .null
  | n => n

/-- The object stored in `currentClue`. -/
structure Clue where
  text : String
  number : ClueNumber
deriving DecidableEq, Repr

/-- The flag `clueType`. -/
inductive ClueType where
  | normal
  | special
deriving DecidableEq, Repr

/-- The game state document. `clueType` and `fullWordList` are absent (`none`) in the
initial value of the writable; `clueType` is absent until the first clue. -/
structure GameState where
  cards : List Card
  currentTurn : Team
  blueCardsLeft : Int
  redCardsLeft : Int
  gameOver : Bool
  winner : Option Team
  currentClue : Option Clue
  guessesRemaining : Guesses
  canGuess : Bool
  clueType : Option ClueType
  fullWordList : Option String
deriving DecidableEq, Repr

/-- An action handed to `addToHistory`. -/
inductive GameAction where
  | clue (team : Team) (clue : String) (number : ClueNumber)
  | guess (word : String) (correct : Option Bool)
deriving DecidableEq, Repr

/-- The `number` field of a history row: `null`, the string `'Infinity'`, or the number. -/
inductive HistoryNumber where
  | null
  | token
  | num (n : Int)
deriving DecidableEq, Repr

/-- A row of `game_history`. -/
structure HistoryRow where
  action : GameAction
  number : HistoryNumber
deriving DecidableEq, Repr

/-- The in-memory view of one client, the persisted state of the room and its history. -/
structure World where
  view : GameState
  room : Option GameState
  history : List HistoryRow
deriving DecidableEq, Repr

/-- The errors the store operations reject with. -/
inductive GameError where
  | invalidWordList
  | fullWordListRequired
  | noGameState
  | typeError
  | writeError
  | invalidGameAction
deriving DecidableEq, Repr

/-- What an operation leaves behind: the error it rejects with, if any, and the world. -/
structure Outcome where
  error : Option GameError
  world : World
deriving DecidableEq, Repr

/-! ## Helpers of `createGameStore` -/

/-- The initial value of the writable. -/
def initialView : GameState :=
  { cards := [], currentTurn := .blue, blueCardsLeft := 9, redCardsLeft := 8,
    gameOver := false, winner := none, currentClue := none,
    guessesRemaining := .finite 0, canGuess := false,
    clueType := none, fullWordList := none }

/-- Replaces an infinite guess budget by the string marker. -/
def serializeGameState (state : GameState) : GameState :=
  { state with
    guessesRemaining :=
      if state.guessesRemaining = .infinity then .token else state.guessesRemaining }

/-- Replaces the string marker by the infinite guess budget. -/
def deserializeGameState (state : GameState) : GameState :=
  { state with
    guessesRemaining :=
      if state.guessesRemaining = .token then .infinity else state.guessesRemaining }

/-- The shape check of history actions. -/
def validateGameAction : GameAction → Bool
  | .clue _ clue number =>
    !(decide (clue = "") ||
      (decide (number ≠ .finite 0) && decide (number ≠ .infinity) &&
        (match number with
         | .finite n => decide (n < 0) || decide (n > 9)
         | .infinity => true
         | .null => true)))
  | .guess word correct => !(decide (word = "") || correct.isNone)

/-- The win check run at the end of every reveal. -/
def checkGameEnd (state : GameState) : GameState :=
  if state.redCardsLeft = 0 then
    { state with gameOver := true, winner := some .red }
  else if state.blueCardsLeft = 0 then
    { state with gameOver := true, winner := some .blue }
  else state

/-- The `number` written to a history row. -/
def historyNumber : GameAction → HistoryNumber
  | .clue _ _ (.finite n) => .num n
  | .clue _ _ .infinity => .token
  | .clue _ _ .null => .null
  | .guess _ _ => .null

/-- Validates an action and appends it to the history; a rejected insert is not reported. -/
def addToHistory (acceptHistory : Bool) (action : GameAction) (w : World) : Outcome :=
  if !validateGameAction action then ⟨some .invalidGameAction, w⟩
  else if acceptHistory then
    ⟨none, { w with history := w.history ++ [⟨action, historyNumber action⟩] }⟩
  else ⟨none, w⟩

/-- The document as the table keeps it: the JSON image, with every `Infinity` turned into
`null`. The counters are finite and the other fields carry no number. -/
def toJson (document : GameState) : GameState :=
  { document with
    guessesRemaining := document.guessesRemaining.toJson
    currentClue :=
      document.currentClue.map (fun c => { c with number := c.number.toJson }) }

/-- Writes the serialised state to the room; throws when the store rejects the write. -/
def updateSupabase (accept : Bool) (state : GameState) (w : World) : Except GameError World :=
  if accept then .ok { w with room := some (toJson (serializeGameState state)) }
  else .error .writeError

/-! ## `initializeGame` -/

/-- The destructuring swap `[array[i], array[j]] = [array[j], array[i]]`. -/
def swapAt {α : Type} (array : List α) (i j : Nat) : List α :=
  match array[i]?, array[j]? with
  | some x, some y => (array.set i y).set j x
  | _, _ => array

/-- The loop of `shuffleArray`, entered with loop variable `i`, running down to `1`. -/
def shuffleLoop {α : Type} (rand : Nat → Nat) : Nat → List α → List α
  | 0, array => array
  | i + 1, array => shuffleLoop rand i (swapAt array (i + 1) (rand (i + 1) % (i + 2)))

/-- The in-place Fisher-Yates shuffle. -/
def shuffleArray {α : Type} (rand : Nat → Nat) (array : List α) : List α :=
  shuffleLoop rand (array.length - 1) array

/-- The card distribution: 8 red, 9 blue, 7 neutral, 1 black. -/
def cardColors : List Color :=
  List.replicate 8 Color.red ++ List.replicate 9 Color.blue ++
    List.replicate 7 Color.neutral ++ [Color.black]

/-- Pairs each word with the colour at its index, unrevealed. The callers pass at most 25
words and a colour array of 25 entries, so the lookup `shuffledColors[index]` is defined. -/
def makeCards (words : List String) (colors : List Color) : List Card :=
  List.zipWith (fun word color => { word := word, color := color, revealed := false })
    words colors

/-- The state object built by `initializeGame`. -/
def freshGameState (cards : List Card) (fullWordList : String) : GameState :=
  { cards := cards, currentTurn := .blue, blueCardsLeft := 9, redCardsLeft := 8,
    gameOver := false, winner := none, currentClue := none,
    guessesRemaining := .finite 0, canGuess := false,
    clueType := none, fullWordList := some fullWordList }

/-- Builds a fresh game from the first 25 words, writes it to the room, then to the view. -/
def initializeGame (accept : Bool) (rand : Nat → Nat) (words : List String)
    (fullWordList : String) (w : World) : Outcome :=
  if words.length < 25 then ⟨some .invalidWordList, w⟩
  else if fullWordList = "" then ⟨some .fullWordListRequired, w⟩
  else
    let shuffledColors := shuffleArray rand cardColors
    let cards := makeCards (words.take 25) shuffledColors
    let gameState := freshGameState cards fullWordList
    match updateSupabase accept gameState w with
    | .error e => ⟨some e, w⟩
    | .ok w1 => ⟨none, { w1 with view := gameState }⟩

/-! ## `revealCard` -/

/-- The assignment `card.revealed = true` on the card at `cardIndex`. -/
def markRevealed (state : GameState) (cardIndex : Nat) (card : Card) : GameState :=
  { state with cards := state.cards.set cardIndex { card with revealed := true } }

/-- The branch on the colour of the revealed card. -/
def resolveColor (state : GameState) (color : Color) : GameState :=
  match color with
  | .black =>
    { state with
      gameOver := true
      winner := some (if state.currentTurn = .red then .blue else .red)
      canGuess := false }
  | .red =>
    let state := { state with redCardsLeft := state.redCardsLeft - 1 }
    if state.currentTurn ≠ .red then
      { state with currentTurn := .blue, canGuess := false, guessesRemaining := .finite 0 }
    else state
  | .blue =>
    let state := { state with blueCardsLeft := state.blueCardsLeft - 1 }
    if state.currentTurn ≠ .blue then
      { state with currentTurn := .red, canGuess := false, guessesRemaining := .finite 0 }
    else state
  | .neutral =>
    { state with
      currentTurn := if state.currentTurn = .red then .blue else .red
      canGuess := false
      guessesRemaining := .finite 0 }

/-- The guess budget: decremented when the card has the colour of the team whose turn it
now is and the clue is not special; the turn ends when the budget is used up. -/
def spendGuess (state : GameState) (color : Color) : GameState :=
  if color = state.currentTurn.color ∧ state.clueType ≠ some .special then
    let state := { state with guessesRemaining := state.guessesRemaining.dec }
    if state.guessesRemaining.leZero then
      { state with
        currentTurn := if state.currentTurn = .red then .blue else .red
        canGuess := false }
    else state
  else state

/-- The state `revealCard` writes for an unrevealed card. -/
def revealedState (state : GameState) (cardIndex : Nat) (card : Card) : GameState :=
  checkGameEnd (spendGuess (resolveColor (markRevealed state cardIndex card) card.color)
    card.color)

/-- Reads the room, reveals the card at `cardIndex`, writes the room, then the view. -/
def revealCard (accept : Bool) (cardIndex : Nat) (w : World) : Outcome :=
  match w.room with
  | none => ⟨some .noGameState, w⟩
  | some doc =>
    let currentGameState := deserializeGameState doc
    match currentGameState.cards[cardIndex]? with
    | none => ⟨some .typeError, w⟩
    | some card =>
      if card.revealed then ⟨none, w⟩
      else
        let next := revealedState currentGameState cardIndex card
        match updateSupabase accept next w with
        | .error e => ⟨some e, w⟩
        | .ok w1 => ⟨none, { w1 with view := next }⟩

/-! ## `setClue` and `endTurn` -/

/-- The guess budget computed from the clue number. -/
def guessesAllowed (number : ClueNumber) : Guesses :=
  if number = .finite 0 then .infinity
  else if number = .finite 1 then .finite 2
  else if number = .infinity then .infinity
  else number.succ

/-- The number kept for display; every branch stores the number it was given. -/
def displayNumber (number : ClueNumber) : ClueNumber :=
  if number = .finite 0 then .finite 0
  else if number = .finite 1 then .finite 1
  else if number = .infinity then .infinity
  else number

/-- The document `setClue` hands to the room update. -/
def clueDocument (currentState : GameState) (clue : String) (number : ClueNumber) :
    GameState :=
  { currentState with
    currentClue := some { text := clue, number := displayNumber number }
    guessesRemaining := guessesAllowed number
    canGuess := true
    clueType :=
      some (if number = .finite 0 ∨ number = .infinity then ClueType.special
        else ClueType.normal) }

/-- Writes the clue to the room, reflects the document the store returns (`data.game_state`,
the JSON image of the payload) in the view, then logs. -/
def setClue (accept acceptHistory : Bool) (clue : String) (number : ClueNumber)
    (w : World) : Outcome :=
  let currentState := w.view
  let document := clueDocument currentState clue number
  if accept then
    let data := toJson document
    let w1 : World :=
      { w with room := some data, view := deserializeGameState data }
    addToHistory acceptHistory
      (.clue currentState.currentTurn clue (displayNumber number)) w1
  else ⟨some .writeError, w⟩

/-- The state `endTurn` moves to. -/
def endTurnState (state : GameState) : GameState :=
  { state with
    currentTurn := if state.currentTurn = .red then .blue else .red
    currentClue := none
    guessesRemaining := .finite 0
    canGuess := false }

/-- Updates the view at once and sends the room write without awaiting it. -/
def endTurn (accept : Bool) (w : World) : Outcome :=
  let newState := endTurnState w.view
  let w1 : World := { w with view := newState }
  match updateSupabase accept newState w1 with
  | .error _ => ⟨none, w1⟩
  | .ok w2 => ⟨none, w2⟩

/-! ## `resetGame` -/

/-- The characters removed by `String.prototype.trim`: white space and line terminators. -/
def isJsWhitespace (c : Char) : Bool :=
  decide (c.toNat = 9) || decide (c.toNat = 10) || decide (c.toNat = 11) ||
  decide (c.toNat = 12) || decide (c.toNat = 13) || decide (c.toNat = 32) ||
  decide (c.toNat = 160) || decide (c.toNat = 5760) ||
  (decide (8192 ≤ c.toNat) && decide (c.toNat ≤ 8202)) ||
  decide (c.toNat = 8232) || decide (c.toNat = 8233) || decide (c.toNat = 8239) ||
  decide (c.toNat = 8287) || decide (c.toNat = 12288) || decide (c.toNat = 65279)

/-- The method `trim`, on the characters of a string. -/
def jsTrim (cs : List Char) : List Char :=
  ((cs.dropWhile isJsWhitespace).reverse.dropWhile isJsWhitespace).reverse

/-- The property `length` of a string: its number of UTF-16 code units. -/
def jsLength (cs : List Char) : Nat :=
  cs.foldl (fun n c => n + (if c.toNat < 65536 then 1 else 2)) 0

/-- The call `split('\n')`, on the characters of a string. -/
def splitLines (cs : List Char) : List (List Char) :=
  cs.foldr
    (fun c acc =>
      if c = Char.ofNat 10 then [] :: acc
      else
        match acc with
        | [] => [[c]]
        | l :: ls => (c :: l) :: ls)
    [[]]

/-- The lines of the full word list, trimmed, of 1 to 30 characters. -/
def allWords (fullWordList : String) : List String :=
  (((splitLines fullWordList.data).map jsTrim).filter
    (fun word => decide (jsLength word > 0) && decide (jsLength word ≤ 30))).map String.mk

/-- Rebuilds the game from the word list kept in the room. The two calls of
`sort(() => Math.random() - 0.5)` are the oracles `sortWords` and `sortColors`, which return
the order the engine leaves the array in. The room is written first, then the history is
cleared, then the players are reset, then the view is set; each of the three writes may be
rejected. The players table lies outside the world: only whether its update is accepted
matters here. -/
def resetGame (accept acceptHistory acceptPlayers : Bool)
    (sortWords : List String → List String) (sortColors : List Color → List Color)
    (w : World) : Outcome :=
  match w.room with
  | none => ⟨some .noGameState, w⟩
  | some doc =>
    match doc.fullWordList with
    | none => ⟨some .typeError, w⟩
    | some fullWordList =>
      let shuffledWords := (sortWords (allWords fullWordList)).take 25
      let shuffledColors := sortColors cardColors
      let newCards := makeCards shuffledWords shuffledColors
      let newGameState := freshGameState newCards fullWordList
      if !accept then ⟨some .writeError, w⟩
      else
        let w1 : World := { w with room := some (toJson newGameState) }
        if !acceptHistory then ⟨some .writeError, w1⟩
        else
          let w2 : World := { w1 with history := [] }
          if !acceptPlayers then ⟨some .writeError, w2⟩
          else ⟨none, { w2 with view := newGameState }⟩

/-! ## Derived notions used by the properties -/

/-- Number of unrevealed cards of a colour. -/
def unrevealedCount (color : Color) (cards : List Card) : Nat :=
  cards.countP (fun c => decide (c.color = color) && !c.revealed)

/-- Number of cards of a colour. -/
def colorCount (color : Color) (cards : List Card) : Nat :=
  cards.countP (fun c => decide (c.color = color))

/-- The cached counters agree with the board. -/
def CountsMatch (state : GameState) : Prop :=
  state.redCardsLeft = (unrevealedCount .red state.cards : Int) ∧
  state.blueCardsLeft = (unrevealedCount .blue state.cards : Int)

/-- The cached counter of a team. -/
def GameState.cardsLeft (state : GameState) : Team → Int
  | .red => state.redCardsLeft
  | .blue => state.blueCardsLeft

/-- One call made by the client after the game has been initialised. -/
inductive Op where
  | reveal (accept : Bool) (cardIndex : Nat)
  | clue (accept acceptHistory : Bool) (clue : String) (number : ClueNumber)
  | endTurn (accept : Bool)
deriving DecidableEq, Repr

/-- The world a call leaves behind, whether it resolves or rejects. -/
def Op.apply : Op → World → World
  | .reveal accept cardIndex, w => (revealCard accept cardIndex w).world
  | .clue accept acceptHistory text number, w =>
    (setClue accept acceptHistory text number w).world
  | .endTurn accept, w => (Codenames.endTurn accept w).world

/-- The world after a sequence of calls, made one after the other. -/
def runOps (ops : List Op) (w : World) : World :=
  ops.foldl (fun w op => op.apply w) w

/-- The room holds a state with the same board and counters as the view, and the counters
agree with the board. -/
def Synced (w : World) : Prop :=
  ∃ doc, w.room = some doc ∧ doc.cards = w.view.cards ∧
    doc.redCardsLeft = w.view.redCardsLeft ∧ doc.blueCardsLeft = w.view.blueCardsLeft ∧
    CountsMatch w.view

/-- Room and view hold the same state, in which team `T` is guessing under a normal clue
with `g` guesses left. -/
def Guessing (T : Team) (g : Int) (w : World) : Prop :=
  ∃ doc, w.room = some doc ∧ w.view = doc ∧ doc.currentTurn = T ∧
    doc.clueType = some .normal ∧ doc.guessesRemaining = .finite g ∧ doc.canGuess = true ∧
    toJson doc = doc

/-- Accepted reveals of the given cards, one after the other. -/
def revealAll (indices : List Nat) (w : World) : World :=
  runOps (indices.map (Op.reveal true)) w

/-- One call on the store, with the outcome of its writes and of its random draws. -/
inductive Call where
  | init (accept : Bool) (rand : Nat → Nat) (words : List String) (fullWordList : String)
  | reveal (accept : Bool) (cardIndex : Nat)
  | clue (accept acceptHistory : Bool) (text : String) (number : ClueNumber)
  | endTurn (accept : Bool)
  | reset (accept acceptHistory acceptPlayers : Bool)
      (sortWords : List String → List String) (sortColors : List Color → List Color)

/-- The world a call leaves behind, whether it resolves or rejects. -/
def Call.apply : Call → World → World
  | .init accept rand words fullWordList, w =>
    (initializeGame accept rand words fullWordList w).world
  | .reveal accept cardIndex, w => (revealCard accept cardIndex w).world
  | .clue accept acceptHistory text number, w =>
    (setClue accept acceptHistory text number w).world
  | .endTurn accept, w => (Codenames.endTurn accept w).world
  | .reset accept acceptHistory acceptPlayers sortWords sortColors, w =>
    (resetGame accept acceptHistory acceptPlayers sortWords sortColors w).world

/-- The world after a sequence of calls, made one after the other. -/
def runCalls (calls : List Call) (w : World) : World :=
  calls.foldl (fun w c => c.apply w) w

/-- A zero counter comes with `gameOver`: what `checkGameEnd` establishes. -/
def EndChecked (state : GameState) : Prop :=
  (state.redCardsLeft = 0 ∨ state.blueCardsLeft = 0) → state.gameOver = true

/-- View and room are end-checked, and the room holds a JSON image whose guess budget is a
number or `null`. -/
def WellFormed (w : World) : Prop :=
  EndChecked w.view ∧
  ∀ doc, w.room = some doc →
    EndChecked doc ∧ toJson doc = doc ∧ doc.guessesRemaining ≠ .token

/-! ## Sample worlds -/

/-- Twenty-five words. -/
def sampleWords : List String :=
  ["apple", "river", "stone", "cloud", "piano", "night", "tiger", "glass", "ocean",
   "bread", "chair", "field", "horse", "light", "mouse", "plant", "queen", "robot",
   "snake", "train", "uncle", "voice", "water", "zebra", "yacht"]

/-- The full word list kept for resets: the sample words, one per line. -/
def sampleWordList : String := "\n".intercalate sampleWords

/-- The world before any game: the writable holds its initial value, the room no state. -/
def emptyWorld : World := { view := initialView, room := none, history := [] }

/-- A board in deck order: cards 0..7 red, 8..16 blue, 17..23 neutral, 24 black. -/
def sampleBoard : List Card := makeCards sampleWords cardColors

/-- A freshly started game on the sample board; blue moves first. -/
def startState : GameState := freshGameState sampleBoard sampleWordList

/-- View and room both hold the freshly started game. -/
def startWorld : World := { view := startState, room := some startState, history := [] }

/-- The world after blue's spymaster has given the clue `sea 2`. -/
def clueWorld : World := (setClue true true "sea" (.finite 2) startWorld).world

/-- A finished game: the assassin (card 24) was revealed on blue's turn, so red has won;
the other 24 cards are still unrevealed. -/
def finishedState : GameState :=
  { startState with
    cards := sampleBoard.set 24 ⟨"yacht", .black, true⟩
    gameOver := true, winner := some .red }

/-- View and room both hold `finishedState`. -/
def finishedWorld : World :=
  { view := finishedState, room := some finishedState, history := [] }

/-- A running game in which card 16 is the last unrevealed blue card; it is red's turn. -/
def lastBlueState : GameState :=
  { startState with
    cards := sampleBoard.map (fun c =>
      if c.color = .blue ∧ c.word ≠ "queen" then { c with revealed := true } else c)
    blueCardsLeft := 1, currentTurn := .red, canGuess := true
    guessesRemaining := .finite 3, clueType := some .normal
    currentClue := some ⟨"sea", .finite 2⟩ }

/-- View and room both hold `lastBlueState`. -/
def lastBlueWorld : World :=
  { view := lastBlueState, room := some lastBlueState, history := [] }

/-- A running game on red's turn with `canGuess = false`: red's spymaster has given no clue
yet. -/
def awaitingClueWorld : World := (Codenames.endTurn true clueWorld).world

/-- A fresh game whose full word list has three words only. -/
def shortListState : GameState := freshGameState sampleBoard "apple\nriver\nstone"

/-- View and room both hold `shortListState`. -/
def shortListWorld : World :=
  { view := shortListState, room := some shortListState, history := [] }

/-! ## Unfolding lemmas for `revealCard` -/

theorem deserialize_cards (doc : GameState) : (deserializeGameState doc).cards = doc.cards := rfl

/-! ### The JSON image of a document -/

@[simp] theorem toJson_cards (d : GameState) : (toJson d).cards = d.cards := rfl

@[simp] theorem toJson_redCardsLeft (d : GameState) :
    (toJson d).redCardsLeft = d.redCardsLeft := rfl

@[simp] theorem toJson_blueCardsLeft (d : GameState) :
    (toJson d).blueCardsLeft = d.blueCardsLeft := rfl

@[simp] theorem toJson_gameOver (d : GameState) : (toJson d).gameOver = d.gameOver := rfl

theorem guesses_toJson_of_ne (g : Guesses) (h : g ≠ .infinity) : g.toJson = g := by
  cases g <;> simp_all [Guesses.toJson]

theorem clueNumber_toJson_of_ne (n : ClueNumber) (h : n ≠ .infinity) : n.toJson = n := by
  cases n <;> simp_all [ClueNumber.toJson]

theorem guesses_toJson_ne (g : Guesses) : g.toJson ≠ .infinity := by
  cases g <;> simp [Guesses.toJson]

theorem clueNumber_toJson_ne (n : ClueNumber) : n.toJson ≠ .infinity := by
  cases n <;> simp [ClueNumber.toJson]

/-- A document without an infinite number is its own JSON image. -/
theorem toJson_eq_self (s : GameState) (hg : s.guessesRemaining ≠ .infinity)
    (hc : ∀ c, s.currentClue = some c → c.number ≠ .infinity) : toJson s = s := by
  have h1 : s.guessesRemaining.toJson = s.guessesRemaining := guesses_toJson_of_ne _ hg
  have h2 : s.currentClue.map (fun c => { c with number := c.number.toJson }) =
      s.currentClue := by
    cases hs : s.currentClue with
    | none => rfl
    | some c =>
      have hne := hc c hs
      simp [clueNumber_toJson_of_ne c.number hne]
  unfold toJson
  rw [h1, h2]

/-- A JSON image holds no infinite number. -/
theorem toJson_fixed (s : GameState) :
    (toJson s).guessesRemaining ≠ .infinity ∧
    ∀ c, (toJson s).currentClue = some c → c.number ≠ .infinity := by
  refine ⟨guesses_toJson_ne _, ?_⟩
  intro c hc
  cases hs : s.currentClue with
  | none => simp [toJson, hs] at hc
  | some c0 =>
    simp only [toJson, hs, Option.map_some', Option.some.injEq] at hc
    rw [← hc]
    exact clueNumber_toJson_ne _

theorem toJson_toJson (s : GameState) : toJson (toJson s) = toJson s :=
  toJson_eq_self _ (toJson_fixed s).1 (toJson_fixed s).2

/-- What a document that is its own JSON image holds. -/
theorem of_toJson_eq_self (s : GameState) (h : toJson s = s) :
    s.guessesRemaining ≠ .infinity ∧
    ∀ c, s.currentClue = some c → c.number ≠ .infinity := by
  rw [← h]
  exact toJson_fixed s

/-- An accepted reveal of an unrevealed card writes `revealedState` to room and view. -/
theorem revealCard_unrevealed (w : World) (i : Nat) (doc : GameState) (card : Card)
    (hroom : w.room = some doc) (hcard : doc.cards[i]? = some card)
    (hrev : card.revealed = false) :
    revealCard true i w =
      ⟨none, { view := revealedState (deserializeGameState doc) i card
               room := some (toJson (serializeGameState
                 (revealedState (deserializeGameState doc) i card)))
               history := w.history }⟩ := by
  simp [revealCard, hroom, deserialize_cards, hcard, hrev, updateSupabase]

/-- A reveal of an already revealed card changes nothing, accepted or not. -/
theorem revealCard_revealed (accept : Bool) (w : World) (i : Nat) (doc : GameState)
    (card : Card) (hroom : w.room = some doc) (hcard : doc.cards[i]? = some card)
    (hrev : card.revealed = true) :
    revealCard accept i w = ⟨none, w⟩ := by
  simp [revealCard, hroom, deserialize_cards, hcard, hrev]

/-- A rejected write leaves the world as it was. -/
theorem revealCard_rejected (w : World) (i : Nat) : (revealCard false i w).world = w := by
  unfold revealCard
  cases w.room with
  | none => rfl
  | some doc =>
    simp only
    cases (deserializeGameState doc).cards[i]? with
    | none => rfl
    | some card => cases hr : card.revealed <;> simp [updateSupabase, hr]

/-! ### Frame lemmas for the stages of a reveal -/

@[simp] theorem checkGameEnd_cards (s : GameState) : (checkGameEnd s).cards = s.cards := by
  unfold checkGameEnd; split_ifs <;> rfl

@[simp] theorem checkGameEnd_currentTurn (s : GameState) :
    (checkGameEnd s).currentTurn = s.currentTurn := by
  unfold checkGameEnd; split_ifs <;> rfl

@[simp] theorem checkGameEnd_redCardsLeft (s : GameState) :
    (checkGameEnd s).redCardsLeft = s.redCardsLeft := by
  unfold checkGameEnd; split_ifs <;> rfl

@[simp] theorem checkGameEnd_blueCardsLeft (s : GameState) :
    (checkGameEnd s).blueCardsLeft = s.blueCardsLeft := by
  unfold checkGameEnd; split_ifs <;> rfl

@[simp] theorem checkGameEnd_guessesRemaining (s : GameState) :
    (checkGameEnd s).guessesRemaining = s.guessesRemaining := by
  unfold checkGameEnd; split_ifs <;> rfl

@[simp] theorem checkGameEnd_canGuess (s : GameState) :
    (checkGameEnd s).canGuess = s.canGuess := by
  unfold checkGameEnd; split_ifs <;> rfl

@[simp] theorem checkGameEnd_clueType (s : GameState) :
    (checkGameEnd s).clueType = s.clueType := by
  unfold checkGameEnd; split_ifs <;> rfl

@[simp] theorem checkGameEnd_currentClue (s : GameState) :
    (checkGameEnd s).currentClue = s.currentClue := by
  unfold checkGameEnd; split_ifs <;> rfl

@[simp] theorem checkGameEnd_fullWordList (s : GameState) :
    (checkGameEnd s).fullWordList = s.fullWordList := by
  unfold checkGameEnd; split_ifs <;> rfl

theorem checkGameEnd_of_nonzero (s : GameState) (hr : s.redCardsLeft ≠ 0)
    (hb : s.blueCardsLeft ≠ 0) : checkGameEnd s = s := by
  simp [checkGameEnd, hr, hb]

theorem checkGameEnd_gameOver (s : GameState) (h : s.gameOver = true) :
    (checkGameEnd s).gameOver = true := by
  unfold checkGameEnd; split_ifs <;> simp [h]

@[simp] theorem spendGuess_cards (s : GameState) (c : Color) :
    (spendGuess s c).cards = s.cards := by
  unfold spendGuess; dsimp only; split_ifs <;> rfl

@[simp] theorem spendGuess_redCardsLeft (s : GameState) (c : Color) :
    (spendGuess s c).redCardsLeft = s.redCardsLeft := by
  unfold spendGuess; dsimp only; split_ifs <;> rfl

@[simp] theorem spendGuess_blueCardsLeft (s : GameState) (c : Color) :
    (spendGuess s c).blueCardsLeft = s.blueCardsLeft := by
  unfold spendGuess; dsimp only; split_ifs <;> rfl

@[simp] theorem spendGuess_gameOver (s : GameState) (c : Color) :
    (spendGuess s c).gameOver = s.gameOver := by
  unfold spendGuess; dsimp only; split_ifs <;> rfl

@[simp] theorem spendGuess_winner (s : GameState) (c : Color) :
    (spendGuess s c).winner = s.winner := by
  unfold spendGuess; dsimp only; split_ifs <;> rfl

@[simp] theorem spendGuess_clueType (s : GameState) (c : Color) :
    (spendGuess s c).clueType = s.clueType := by
  unfold spendGuess; dsimp only; split_ifs <;> rfl

@[simp] theorem spendGuess_currentClue (s : GameState) (c : Color) :
    (spendGuess s c).currentClue = s.currentClue := by
  unfold spendGuess; dsimp only; split_ifs <;> rfl

/-- A card whose colour is not that of the team on turn spends no guess. -/
theorem spendGuess_of_ne (s : GameState) (c : Color) (h : c ≠ s.currentTurn.color) :
    spendGuess s c = s := by
  simp [spendGuess, h]

@[simp] theorem resolveColor_cards (s : GameState) (c : Color) :
    (resolveColor s c).cards = s.cards := by
  cases c <;> simp only [resolveColor] <;> (try split_ifs) <;> simp_all

@[simp] theorem resolveColor_clueType (s : GameState) (c : Color) :
    (resolveColor s c).clueType = s.clueType := by
  cases c <;> simp only [resolveColor] <;> (try split_ifs) <;> simp_all

@[simp] theorem resolveColor_currentClue (s : GameState) (c : Color) :
    (resolveColor s c).currentClue = s.currentClue := by
  cases c <;> simp only [resolveColor] <;> (try split_ifs) <;> simp_all

theorem resolveColor_gameOver (s : GameState) (c : Color) (h : s.gameOver = true) :
    (resolveColor s c).gameOver = true := by
  cases c <;> simp only [resolveColor] <;> (try split_ifs) <;> simp_all

theorem resolveColor_redCardsLeft (s : GameState) (c : Color) :
    (resolveColor s c).redCardsLeft =
      if c = .red then s.redCardsLeft - 1 else s.redCardsLeft := by
  cases c <;> simp only [resolveColor] <;> (try split_ifs) <;> simp_all

theorem resolveColor_blueCardsLeft (s : GameState) (c : Color) :
    (resolveColor s c).blueCardsLeft =
      if c = .blue then s.blueCardsLeft - 1 else s.blueCardsLeft := by
  cases c <;> simp only [resolveColor] <;> (try split_ifs) <;> simp_all

/-- The card at the revealed index is revealed in `revealedState`. -/
theorem revealedState_cards (s : GameState) (i : Nat) (card : Card) :
    (revealedState s i card).cards = s.cards.set i { card with revealed := true } := by
  simp [revealedState, markRevealed]

/-- A reveal leaves the clue on display as it was. -/
theorem revealedState_currentClue (s : GameState) (i : Nat) (card : Card) :
    (revealedState s i card).currentClue = s.currentClue := by
  simp [revealedState, markRevealed]

/-- The counters after a reveal: the counter of the card's colour drops by one. -/
theorem revealedState_redCardsLeft (s : GameState) (i : Nat) (card : Card) :
    (revealedState s i card).redCardsLeft =
      if card.color = .red then s.redCardsLeft - 1 else s.redCardsLeft := by
  simp [revealedState, resolveColor_redCardsLeft, markRevealed]

theorem revealedState_blueCardsLeft (s : GameState) (i : Nat) (card : Card) :
    (revealedState s i card).blueCardsLeft =
      if card.color = .blue then s.blueCardsLeft - 1 else s.blueCardsLeft := by
  simp [revealedState, resolveColor_blueCardsLeft, markRevealed]

/-- Once set, `gameOver` survives a reveal. -/
theorem revealedState_gameOver (s : GameState) (i : Nat) (card : Card)
    (h : s.gameOver = true) : (revealedState s i card).gameOver = true := by
  unfold revealedState
  apply checkGameEnd_gameOver
  rw [spendGuess_gameOver]
  exact resolveColor_gameOver _ _ h

theorem serialize_ne_infinity (s : GameState) :
    (serializeGameState s).guessesRemaining ≠ .infinity := by
  unfold serializeGameState
  dsimp only
  split_ifs with h
  · simp
  · exact h

/-- When the room held a JSON image, the serialised state after a reveal is one too, so the
room keeps exactly the serialised state. -/
theorem toJson_serialize_revealed (doc : GameState) (i : Nat) (card : Card)
    (hjson : toJson doc = doc) :
    toJson (serializeGameState (revealedState (deserializeGameState doc) i card)) =
      serializeGameState (revealedState (deserializeGameState doc) i card) := by
  apply toJson_eq_self _ (serialize_ne_infinity _)
  show ∀ c, (revealedState (deserializeGameState doc) i card).currentClue = some c → _
  rw [revealedState_currentClue]
  exact (of_toJson_eq_self doc hjson).2

/-! ## Properties of `revealCard` -/

/-- C2 (evaluation at the failing input): on blue's turn, after the clue `sea 2`, revealing
the unrevealed red card 0 lowers `redCardsLeft` from 8 to 7, zeroes `guessesRemaining` and
clears `canGuess`, but `currentTurn` is still blue: the turn does not pass to red. -/
theorem revealCard_opponent_card_keeps_turn :
    clueWorld.room.map (fun s => (s.gameOver, s.currentTurn, s.redCardsLeft)) =
      some (false, Team.blue, 8) ∧
    clueWorld.view.cards[0]? = some ⟨"apple", Color.red, false⟩ ∧
    (revealCard true 0 clueWorld).error = none ∧
    (revealCard true 0 clueWorld).world.view.redCardsLeft = 7 ∧
    (revealCard true 0 clueWorld).world.view.guessesRemaining = Guesses.finite 0 ∧
    (revealCard true 0 clueWorld).world.view.canGuess = false ∧
    (revealCard true 0 clueWorld).world.view.currentTurn = Team.blue ∧
    (revealCard true 0 clueWorld).world.room =
      some (revealCard true 0 clueWorld).world.view := by
  decide

/-! ### The reveal of a black, neutral or last card -/

theorem black_ne_team (t : Team) : Color.black ≠ t.color := by cases t <;> decide

theorem neutral_ne_team (t : Team) : Color.neutral ≠ t.color := by cases t <;> decide

/-- The state after the assassin is revealed while both counters are non-zero. -/
theorem revealedState_black (s : GameState) (i : Nat) (card : Card)
    (hcol : card.color = .black) (hred : s.redCardsLeft ≠ 0) (hblue : s.blueCardsLeft ≠ 0) :
    revealedState s i card =
      { markRevealed s i card with
        gameOver := true, winner := some s.currentTurn.other, canGuess := false } := by
  unfold revealedState
  rw [hcol, spendGuess_of_ne _ _ (black_ne_team _), checkGameEnd_of_nonzero]
  · simp [resolveColor, markRevealed, Team.other]
  · simpa [resolveColor_redCardsLeft, markRevealed] using hred
  · simpa [resolveColor_blueCardsLeft, markRevealed] using hblue

/-- The state after a neutral card is revealed while both counters are non-zero. -/
theorem revealedState_neutral (s : GameState) (i : Nat) (card : Card)
    (hcol : card.color = .neutral) (hred : s.redCardsLeft ≠ 0) (hblue : s.blueCardsLeft ≠ 0) :
    revealedState s i card =
      { markRevealed s i card with
        currentTurn := s.currentTurn.other, canGuess := false,
        guessesRemaining := .finite 0 } := by
  unfold revealedState
  rw [hcol, spendGuess_of_ne _ _ (neutral_ne_team _), checkGameEnd_of_nonzero]
  · simp [resolveColor, markRevealed, Team.other]
  · simpa [resolveColor_redCardsLeft, markRevealed] using hred
  · simpa [resolveColor_blueCardsLeft, markRevealed] using hblue

theorem checkGameEnd_red (s : GameState) (h : s.redCardsLeft = 0) :
    (checkGameEnd s).gameOver = true ∧ (checkGameEnd s).winner = some .red := by
  simp [checkGameEnd, h]

theorem checkGameEnd_blue (s : GameState) (hr : s.redCardsLeft ≠ 0) (h : s.blueCardsLeft = 0) :
    (checkGameEnd s).gameOver = true ∧ (checkGameEnd s).winner = some .blue := by
  simp [checkGameEnd, h, hr]

/-- C6: in a running game where team `T` has one card left and the other team has not
finished, an accepted reveal of an unrevealed card of `T`'s colour ends the game with
`winner = T`, whichever team is on turn; the view and the room both hold that state. -/
theorem revealCard_last_card_wins (w : World) (i : Nat) (doc : GameState) (card : Card)
    (T : Team) (hroom : w.room = some doc) (hcard : doc.cards[i]? = some card)
    (hrev : card.revealed = false) (hcol : card.color = T.color)
    (_hover : doc.gameOver = false) (hone : doc.cardsLeft T = 1)
    (hother : doc.cardsLeft T.other ≠ 0) :
    (revealCard true i w).error = none ∧
    (revealCard true i w).world.view.gameOver = true ∧
    (revealCard true i w).world.view.winner = some T ∧
    (revealCard true i w).world.view.cardsLeft T = 0 ∧
    (revealCard true i w).world.room =
      some (toJson (serializeGameState (revealCard true i w).world.view)) ∧
    (toJson doc = doc →
      (revealCard true i w).world.room =
        some (serializeGameState (revealCard true i w).world.view)) := by
  rw [revealCard_unrevealed w i doc card hroom hcard hrev]
  refine ⟨rfl, ?_, ?_, ?_, rfl,
    fun h => congrArg some (toJson_serialize_revealed doc i card h)⟩ <;> cases T <;>
    simp only [GameState.cardsLeft, Team.other, Team.color] at hone hother hcol ⊢
  · exact (checkGameEnd_red _ (by
      simp [resolveColor_redCardsLeft, markRevealed, hcol, deserializeGameState, hone])).1
  · exact (checkGameEnd_blue _
      (by simpa [resolveColor_redCardsLeft, markRevealed, hcol, deserializeGameState]
        using hother)
      (by simp [resolveColor_blueCardsLeft, markRevealed, hcol, deserializeGameState,
        hone])).1
  · exact (checkGameEnd_red _ (by
      simp [resolveColor_redCardsLeft, markRevealed, hcol, deserializeGameState, hone])).2
  · exact (checkGameEnd_blue _
      (by simpa [resolveColor_redCardsLeft, markRevealed, hcol, deserializeGameState]
        using hother)
      (by simp [resolveColor_blueCardsLeft, markRevealed, hcol, deserializeGameState,
        hone])).2
  · simp [revealedState_redCardsLeft, hcol, deserializeGameState, hone]
  · simp [revealedState_blueCardsLeft, hcol, deserializeGameState, hone]

/-- C6 at a concrete input: blue has one card left (card 16) and it is red's turn; revealing
card 16 ends the game with blue as winner. -/
theorem revealCard_last_card_wins_witness :
    (revealCard true 16 lastBlueWorld).world.view.gameOver = true ∧
    (revealCard true 16 lastBlueWorld).world.view.winner = some Team.blue :=
  have h := revealCard_last_card_wins lastBlueWorld 16 lastBlueState
    ⟨"queen", Color.blue, false⟩ Team.blue rfl (by decide) rfl rfl rfl (by decide) (by decide)
  ⟨h.2.1, h.2.2.1⟩

/-- C7: in a running game with both counters non-zero, an accepted reveal of the unrevealed
assassin ends the game, clears `canGuess`, makes the team that was not guessing the winner
and leaves both counters as they were; the view and the room both hold that state. -/
theorem revealCard_assassin (w : World) (i : Nat) (doc : GameState) (card : Card)
    (hroom : w.room = some doc) (hcard : doc.cards[i]? = some card)
    (hrev : card.revealed = false) (hcol : card.color = .black)
    (_hover : doc.gameOver = false) (hred : doc.redCardsLeft ≠ 0)
    (hblue : doc.blueCardsLeft ≠ 0) :
    (revealCard true i w).error = none ∧
    (revealCard true i w).world.view.gameOver = true ∧
    (revealCard true i w).world.view.canGuess = false ∧
    (revealCard true i w).world.view.winner = some doc.currentTurn.other ∧
    (doc.currentTurn = .red → (revealCard true i w).world.view.winner = some .blue) ∧
    (doc.currentTurn = .blue → (revealCard true i w).world.view.winner = some .red) ∧
    (revealCard true i w).world.view.redCardsLeft = doc.redCardsLeft ∧
    (revealCard true i w).world.view.blueCardsLeft = doc.blueCardsLeft ∧
    (revealCard true i w).world.room =
      some (toJson (serializeGameState (revealCard true i w).world.view)) ∧
    (toJson doc = doc →
      (revealCard true i w).world.room =
        some (serializeGameState (revealCard true i w).world.view)) := by
  have hj := fun h => congrArg some (toJson_serialize_revealed doc i card h)
  rw [revealCard_unrevealed w i doc card hroom hcard hrev]
  rw [revealedState_black (deserializeGameState doc) i card hcol hred hblue] at hj ⊢
  refine ⟨rfl, rfl, rfl, rfl, ?_, ?_, rfl, rfl, rfl, hj⟩
  · intro h
    simp [deserializeGameState, h, Team.other]
  · intro h
    simp [deserializeGameState, h, Team.other]

/-- C7 at a concrete input: on blue's turn, after the clue `sea 2`, revealing the assassin
(card 24) ends the game and red wins. -/
theorem revealCard_assassin_witness :
    (revealCard true 24 clueWorld).world.view.gameOver = true ∧
    (revealCard true 24 clueWorld).world.view.winner = some Team.red :=
  have h := revealCard_assassin clueWorld 24 clueWorld.view ⟨"yacht", Color.black, false⟩
    (by decide) (by decide) rfl rfl (by decide) (by decide) (by decide)
  ⟨h.2.1, h.2.2.2.2.2.1 (by decide)⟩

/-- With both counters non-zero, an accepted reveal of an unrevealed neutral card passes the
turn to the other team, clears `canGuess` and zeroes `guessesRemaining`, and leaves both
counters, `gameOver` and `winner` as they were. -/
theorem revealCard_neutral_of_nonzero (w : World) (i : Nat) (doc : GameState) (card : Card)
    (hroom : w.room = some doc) (hcard : doc.cards[i]? = some card)
    (hrev : card.revealed = false) (hcol : card.color = .neutral)
    (hover : doc.gameOver = false) (hred : doc.redCardsLeft ≠ 0)
    (hblue : doc.blueCardsLeft ≠ 0) :
    (revealCard true i w).error = none ∧
    (revealCard true i w).world.view.currentTurn = doc.currentTurn.other ∧
    (revealCard true i w).world.view.canGuess = false ∧
    (revealCard true i w).world.view.guessesRemaining = .finite 0 ∧
    (revealCard true i w).world.view.redCardsLeft = doc.redCardsLeft ∧
    (revealCard true i w).world.view.blueCardsLeft = doc.blueCardsLeft ∧
    (revealCard true i w).world.view.gameOver = false ∧
    (revealCard true i w).world.view.winner = doc.winner ∧
    (revealCard true i w).world.view.cards = doc.cards.set i { card with revealed := true } ∧
    (revealCard true i w).world.view.currentClue = doc.currentClue ∧
    (revealCard true i w).world.room =
      some (toJson (serializeGameState (revealCard true i w).world.view)) := by
  rw [revealCard_unrevealed w i doc card hroom hcard hrev,
    revealedState_neutral (deserializeGameState doc) i card hcol hred hblue]
  exact ⟨rfl, rfl, rfl, rfl, rfl, rfl, hover, rfl, rfl, rfl, rfl⟩

/-! ### How a reveal resolves each colour, whatever the flags of the state -/

/-- A neutral card passes the turn, clears `canGuess` and zeroes the budget. -/
theorem revealedState_neutral_fields (s : GameState) (i : Nat) (card : Card)
    (hcol : card.color = .neutral) :
    (revealedState s i card).currentTurn = s.currentTurn.other ∧
    (revealedState s i card).canGuess = false ∧
    (revealedState s i card).guessesRemaining = .finite 0 := by
  unfold revealedState
  rw [checkGameEnd_currentTurn, checkGameEnd_canGuess, checkGameEnd_guessesRemaining, hcol,
    spendGuess_of_ne _ _ (neutral_ne_team _)]
  exact ⟨rfl, rfl, rfl⟩

/-- The assassin ends the game and clears `canGuess`; turn and budget stay; the team that
was not guessing wins unless a counter is zero. -/
theorem revealedState_black_fields (s : GameState) (i : Nat) (card : Card)
    (hcol : card.color = .black) :
    (revealedState s i card).gameOver = true ∧
    (revealedState s i card).canGuess = false ∧
    (revealedState s i card).currentTurn = s.currentTurn ∧
    (revealedState s i card).guessesRemaining = s.guessesRemaining ∧
    (s.redCardsLeft ≠ 0 → s.blueCardsLeft ≠ 0 →
      (revealedState s i card).winner = some s.currentTurn.other) := by
  refine ⟨?_, ?_, ?_, ?_, ?_⟩
  · unfold revealedState
    apply checkGameEnd_gameOver
    rw [hcol, spendGuess_of_ne _ _ (black_ne_team _)]
    rfl
  · unfold revealedState
    rw [checkGameEnd_canGuess, hcol, spendGuess_of_ne _ _ (black_ne_team _)]
    rfl
  · unfold revealedState
    rw [checkGameEnd_currentTurn, hcol, spendGuess_of_ne _ _ (black_ne_team _)]
    rfl
  · unfold revealedState
    rw [checkGameEnd_guessesRemaining, hcol, spendGuess_of_ne _ _ (black_ne_team _)]
    rfl
  · intro hr hb
    rw [revealedState_black s i card hcol hr hb]

/-- A card of the colour of the team that is not guessing clears `canGuess` and zeroes the
budget; `currentTurn` keeps its value. -/
theorem revealedState_opponent_fields (s : GameState) (i : Nat) (card : Card) (T : Team)
    (hcol : card.color = T.color) (hturn : s.currentTurn ≠ T) :
    (revealedState s i card).currentTurn = s.currentTurn ∧
    (revealedState s i card).canGuess = false ∧
    (revealedState s i card).guessesRemaining = .finite 0 := by
  have hres : resolveColor (markRevealed s i card) card.color =
      { resolveColor (markRevealed s i card) card.color with
        currentTurn := s.currentTurn, canGuess := false, guessesRemaining := .finite 0 } := by
    rw [hcol]
    cases T <;> cases hT : s.currentTurn <;>
      simp_all [resolveColor, markRevealed, Team.color]
  have hne : card.color ≠
      (resolveColor (markRevealed s i card) card.color).currentTurn.color := by
    rw [hres, hcol]
    cases T <;> cases hT : s.currentTurn <;> simp_all [Team.color]
  unfold revealedState
  rw [checkGameEnd_currentTurn, checkGameEnd_canGuess, checkGameEnd_guessesRemaining,
    spendGuess_of_ne _ _ hne, hres]
  exact ⟨rfl, rfl, rfl⟩

/-- The win check closes every reveal: a zero red counter makes red the winner, otherwise a
zero blue counter makes blue the winner. -/
theorem revealedState_winCheck (s : GameState) (i : Nat) (card : Card) :
    ((revealedState s i card).redCardsLeft = 0 →
      (revealedState s i card).gameOver = true ∧
      (revealedState s i card).winner = some .red) ∧
    ((revealedState s i card).redCardsLeft ≠ 0 →
      (revealedState s i card).blueCardsLeft = 0 →
      (revealedState s i card).gameOver = true ∧
      (revealedState s i card).winner = some .blue) := by
  unfold revealedState
  rw [checkGameEnd_redCardsLeft, checkGameEnd_blueCardsLeft]
  exact ⟨fun h => checkGameEnd_red _ h, fun hr hb => checkGameEnd_blue _ hr hb⟩

/-! ### Reveals of revealed cards and reveals after the game has ended -/

/-- After any reveal that found a card at the index, that card is revealed in the room. -/
theorem revealCard_then_revealed (w : World) (i : Nat) (doc : GameState) (card : Card)
    (hroom : w.room = some doc) (hcard : doc.cards[i]? = some card)
    (hrev : card.revealed = false) :
    ∃ doc1 card1, (revealCard true i w).world.room = some doc1 ∧
      doc1.cards[i]? = some card1 ∧ card1.revealed = true := by
  rw [revealCard_unrevealed w i doc card hroom hcard hrev]
  refine ⟨_, { card with revealed := true }, rfl, ?_, rfl⟩
  have hi : i < doc.cards.length := by
    rcases List.getElem?_eq_some.1 hcard with ⟨h, _⟩
    exact h
  show (revealedState (deserializeGameState doc) i card).cards[i]? = _
  rw [revealedState_cards]
  simp [deserialize_cards, hi]

/-- C9: a reveal of a card that is already revealed reports no error and leaves view, room
and history exactly as they were, whether or not the store would accept a write; hence
revealing the same index twice leaves the same world as revealing it once. -/
theorem revealCard_idempotent (accept : Bool) (w : World) (i : Nat) :
    (∀ doc card, w.room = some doc → doc.cards[i]? = some card → card.revealed = true →
      revealCard accept i w = ⟨none, w⟩) ∧
    (revealCard accept i (revealCard accept i w).world).world =
      (revealCard accept i w).world := by
  refine ⟨fun doc card hroom hcard hrev => revealCard_revealed accept w i doc card hroom hcard hrev,
    ?_⟩
  cases accept with
  | false => rw [revealCard_rejected, revealCard_rejected]
  | true =>
    cases hroom : w.room with
    | none => simp [revealCard, hroom]
    | some doc =>
      cases hcard : doc.cards[i]? with
      | none => simp [revealCard, hroom, deserialize_cards, hcard]
      | some card =>
        cases hrev : card.revealed with
        | true =>
          rw [revealCard_revealed true w i doc card hroom hcard hrev]
          simp only
          rw [revealCard_revealed true w i doc card hroom hcard hrev]
        | false =>
          obtain ⟨doc1, card1, h1, h2, h3⟩ :=
            revealCard_then_revealed w i doc card hroom hcard hrev
          rw [revealCard_revealed true _ i doc1 card1 h1 h2 h3]

/-- C9 at a concrete input: card 24 of `finishedWorld` is revealed, and revealing it again
changes nothing. -/
theorem revealCard_idempotent_witness :
    finishedWorld.room = some finishedState ∧
    finishedState.cards[24]? = some ⟨"yacht", Color.black, true⟩ ∧
    revealCard true 24 finishedWorld = ⟨none, finishedWorld⟩ :=
  ⟨rfl, by decide,
    (revealCard_idempotent true finishedWorld 24).1 finishedState
      ⟨"yacht", Color.black, true⟩ rfl (by decide) rfl⟩

/-- C10 fails as stated: in `finishedWorld` the game is over (red has won), yet an accepted
reveal of the unrevealed neutral card 17 marks the card revealed and writes a new state to
the view and the room. -/
theorem revealCard_after_gameOver_mutates :
    finishedWorld.room = some finishedState ∧
    finishedState.gameOver = true ∧
    finishedState.cards[17]? = some ⟨"robot", Color.neutral, false⟩ ∧
    finishedState.currentTurn = Team.blue ∧
    (revealCard true 17 finishedWorld).error = none ∧
    (revealCard true 17 finishedWorld).world ≠ finishedWorld ∧
    (revealCard true 17 finishedWorld).world.view.cards[17]? =
      some ⟨"robot", Color.neutral, true⟩ ∧
    (revealCard true 17 finishedWorld).world.view.currentTurn = Team.red ∧
    (revealCard true 17 finishedWorld).world.room =
      some (revealCard true 17 finishedWorld).world.view := by
  decide

/-- C10 (amended): when the game is over, a reveal of an already revealed card leaves the
world unchanged, while an accepted reveal of an unrevealed card is carried out as in a
running game: the card is marked revealed, a red or blue card lowers the counter of its
colour by one, a neutral card passes the turn, clears `canGuess` and zeroes the budget, the
assassin clears `canGuess` and (with both counters non-zero) makes the team not on turn the
winner, a card of the other team's colour clears `canGuess` and zeroes the budget, and a
counter at zero sets the winner. `gameOver` remains true, and the room holds the
serialised new state. -/
theorem revealCard_after_gameOver (w : World) (i : Nat) (doc : GameState) (card : Card)
    (hroom : w.room = some doc) (hcard : doc.cards[i]? = some card)
    (hover : doc.gameOver = true) :
    (card.revealed = true → ∀ accept, revealCard accept i w = ⟨none, w⟩) ∧
    (card.revealed = false →
      ∃ next, revealCard true i w =
          ⟨none, ⟨next, some (toJson (serializeGameState next)), w.history⟩⟩ ∧
        next.gameOver = true ∧
        next.cards = doc.cards.set i { card with revealed := true } ∧
        next.redCardsLeft =
          (if card.color = .red then doc.redCardsLeft - 1 else doc.redCardsLeft) ∧
        next.blueCardsLeft =
          (if card.color = .blue then doc.blueCardsLeft - 1 else doc.blueCardsLeft) ∧
        (card.color = .neutral →
          next.currentTurn = doc.currentTurn.other ∧ next.canGuess = false ∧
          next.guessesRemaining = .finite 0) ∧
        (card.color = .black →
          next.canGuess = false ∧ next.currentTurn = doc.currentTurn ∧
          (doc.redCardsLeft ≠ 0 → doc.blueCardsLeft ≠ 0 →
            next.winner = some doc.currentTurn.other)) ∧
        (∀ T : Team, card.color = T.color → doc.currentTurn ≠ T →
          next.currentTurn = doc.currentTurn ∧ next.canGuess = false ∧
          next.guessesRemaining = .finite 0) ∧
        (next.redCardsLeft = 0 → next.winner = some .red) ∧
        (next.redCardsLeft ≠ 0 → next.blueCardsLeft = 0 → next.winner = some .blue)) := by
  refine ⟨fun hrev accept => revealCard_revealed accept w i doc card hroom hcard hrev, ?_⟩
  intro hrev
  refine ⟨revealedState (deserializeGameState doc) i card,
    revealCard_unrevealed w i doc card hroom hcard hrev,
    revealedState_gameOver _ _ _ hover, revealedState_cards _ _ _,
    revealedState_redCardsLeft _ _ _, revealedState_blueCardsLeft _ _ _,
    fun hcol => revealedState_neutral_fields (deserializeGameState doc) i card hcol,
    fun hcol => ?_,
    fun T hcol hturn =>
      revealedState_opponent_fields (deserializeGameState doc) i card T hcol hturn,
    fun h0 => ((revealedState_winCheck (deserializeGameState doc) i card).1 h0).2,
    fun hr hb => ((revealedState_winCheck (deserializeGameState doc) i card).2 hr hb).2⟩
  obtain ⟨_, h2, h3, _, h5⟩ :=
    revealedState_black_fields (deserializeGameState doc) i card hcol
  exact ⟨h2, h3, h5⟩

/-- C10 (amended) at a concrete input: after the game has ended on blue's turn, revealing
the neutral card 17 reveals it and passes the turn; the game stays over. -/
theorem revealCard_after_gameOver_witness :
    finishedState.gameOver = true ∧ finishedState.currentTurn = Team.blue ∧
    ∃ next, (revealCard true 17 finishedWorld).world.view = next ∧
      next.cards = finishedState.cards.set 17 ⟨"robot", Color.neutral, true⟩ ∧
      next.currentTurn = Team.red ∧ next.gameOver = true := by
  obtain ⟨next, h, hover, hcards, _, _, hneutral, _⟩ :=
    (revealCard_after_gameOver finishedWorld 17 finishedState
      ⟨"robot", Color.neutral, false⟩ rfl (by decide) rfl).2 rfl
  exact ⟨rfl, rfl, next, by rw [h], hcards, (hneutral rfl).1, hover⟩

/-! ## Properties of `setClue` -/

@[simp] theorem addToHistory_view (a : Bool) (action : GameAction) (w : World) :
    (addToHistory a action w).world.view = w.view := by
  unfold addToHistory; split_ifs <;> rfl

@[simp] theorem addToHistory_room (a : Bool) (action : GameAction) (w : World) :
    (addToHistory a action w).world.room = w.room := by
  unfold addToHistory; split_ifs <;> rfl

/-- The payload of a clue holds no string marker, and neither does its JSON image, so
reading the returned document changes nothing. -/
theorem deserialize_toJson_clueDocument (s : GameState) (clue : String)
    (number : ClueNumber) :
    deserializeGameState (toJson (clueDocument s clue number)) =
      toJson (clueDocument s clue number) := by
  have h : (guessesAllowed number).toJson ≠ .token := by
    unfold guessesAllowed
    split_ifs
    · simp [Guesses.toJson]
    · simp [Guesses.toJson]
    · simp [Guesses.toJson]
    · cases number <;> simp [ClueNumber.succ, Guesses.toJson]
  simp [deserializeGameState, toJson, clueDocument, h]

/-- An accepted clue puts the JSON image of the payload in the room and in the view. -/
theorem setClue_accepted (acceptHistory : Bool) (clue : String) (number : ClueNumber)
    (w : World) :
    (setClue true acceptHistory clue number w).world.view =
      toJson (clueDocument w.view clue number) ∧
    (setClue true acceptHistory clue number w).world.room =
      some (toJson (clueDocument w.view clue number)) := by
  simp [setClue, deserialize_toJson_clueDocument]

/-- The budget the payload carries for each clue number: infinite for 0 and the unlimited
sentinel, 2 for 1, and `n + 1` for every other integer. -/
theorem guessesAllowed_mapping :
    guessesAllowed (.finite 0) = .infinity ∧ guessesAllowed .infinity = .infinity ∧
    guessesAllowed (.finite 1) = .finite 2 ∧
    ∀ n : Int, 2 ≤ n → guessesAllowed (.finite n) = .finite (n + 1) := by
  refine ⟨rfl, rfl, rfl, ?_⟩
  intro n h2
  have h0 : n ≠ 0 := by omega
  have h1 : n ≠ 1 := by omega
  simp [guessesAllowed, ClueNumber.succ, h0, h1]

/-- For a clue number `n` of at least 1 the state after an accepted `setClue` holds the
budget `n + 1`, a normal clue and `canGuess`. -/
theorem setClue_finite_mapping (acceptHistory : Bool) (clue : String) (n : Int)
    (w : World) (h1 : 1 ≤ n) :
    (setClue true acceptHistory clue (.finite n) w).world.view.guessesRemaining =
      .finite (n + 1) ∧
    (setClue true acceptHistory clue (.finite n) w).world.view.clueType = some .normal ∧
    (setClue true acceptHistory clue (.finite n) w).world.view.canGuess = true ∧
    (setClue true acceptHistory clue (.finite n) w).world.view.currentClue =
      some ⟨clue, .finite n⟩ := by
  rw [(setClue_accepted acceptHistory clue (.finite n) w).1]
  have h0 : n ≠ 0 := by omega
  by_cases hn1 : n = 1
  · subst hn1
    simp [toJson, clueDocument, guessesAllowed, displayNumber, Guesses.toJson,
      ClueNumber.toJson]
  · simp [toJson, clueDocument, guessesAllowed, displayNumber, ClueNumber.succ,
      Guesses.toJson, ClueNumber.toJson, h0, hn1]

/-- C4 (evaluation at the failing inputs): for the clue numbers 0 and unlimited the payload
carries an infinite budget, but the state an accepted `setClue` leaves in room and view
holds `null` as `guessesRemaining`; the clue type is special and `canGuess` is true. An
unlimited clue number is kept as `null` too. For the clue number 5 the budget is 6. -/
theorem setClue_budget_lost :
    (clueDocument startState "sea" (.finite 0)).guessesRemaining = Guesses.infinity ∧
    (setClue true true "sea" (.finite 0) startWorld).error = none ∧
    (setClue true true "sea" (.finite 0) startWorld).world.view.guessesRemaining =
      Guesses.null ∧
    (setClue true true "sea" (.finite 0) startWorld).world.view.clueType =
      some ClueType.special ∧
    (setClue true true "sea" (.finite 0) startWorld).world.view.canGuess = true ∧
    (setClue true true "sea" (.finite 0) startWorld).world.room =
      some (setClue true true "sea" (.finite 0) startWorld).world.view ∧
    (clueDocument startState "sea" .infinity).guessesRemaining = Guesses.infinity ∧
    (setClue true true "sea" .infinity startWorld).error = none ∧
    (setClue true true "sea" .infinity startWorld).world.view.guessesRemaining =
      Guesses.null ∧
    (setClue true true "sea" .infinity startWorld).world.view.currentClue =
      some ⟨"sea", ClueNumber.null⟩ ∧
    (setClue true true "sea" .infinity startWorld).world.view.clueType =
      some ClueType.special ∧
    (setClue true true "sea" (.finite 5) startWorld).world.view.guessesRemaining =
      Guesses.finite 6 := by
  decide

/-! ## Properties of `initializeGame` -/

theorem swapAt_length {α : Type} (l : List α) (i j : Nat) :
    (swapAt l i j).length = l.length := by
  unfold swapAt
  split <;> simp

/-- A swap keeps, for every predicate, the number of entries that satisfy it. -/
theorem swapAt_countP {α : Type} (p : α → Bool) (l : List α) (i j : Nat) :
    (swapAt l i j).countP p = l.countP p := by
  unfold swapAt
  split
  · next x y hx hy =>
    obtain ⟨hi, hxi⟩ := List.getElem?_eq_some.1 hx
    obtain ⟨hj, hyj⟩ := List.getElem?_eq_some.1 hy
    have hj1 : j < (l.set i y).length := by simpa using hj
    rw [List.countP_set p _ j x hj1, List.countP_set p l i y hi]
    have hget : (l.set i y)[j] = y := by
      by_cases hij : i = j
      · subst hij; simp
      · simp [List.getElem_set, hij, hyj]
    rw [hget, hxi]
    have hle : (if p l[i] = true then 1 else 0) ≤ l.countP p :=
      List.boole_getElem_le_countP p l i hi
    rw [hxi] at hle
    split_ifs at hle ⊢ <;> omega
  · rfl

theorem shuffleLoop_length {α : Type} (rand : Nat → Nat) (i : Nat) (l : List α) :
    (shuffleLoop rand i l).length = l.length := by
  induction i generalizing l with
  | zero => rfl
  | succ i ih => rw [shuffleLoop, ih, swapAt_length]

theorem shuffleLoop_countP {α : Type} (p : α → Bool) (rand : Nat → Nat) (i : Nat)
    (l : List α) : (shuffleLoop rand i l).countP p = l.countP p := by
  induction i generalizing l with
  | zero => rfl
  | succ i ih => rw [shuffleLoop, ih, swapAt_countP]

/-- Whatever the draws, the shuffle keeps the length of the array. -/
theorem shuffleArray_length {α : Type} (rand : Nat → Nat) (l : List α) :
    (shuffleArray rand l).length = l.length := shuffleLoop_length rand _ l

/-- Whatever the draws, the shuffle keeps every count. -/
theorem shuffleArray_countP {α : Type} (p : α → Bool) (rand : Nat → Nat) (l : List α) :
    (shuffleArray rand l).countP p = l.countP p := shuffleLoop_countP p rand _ l

theorem makeCards_color (words : List String) (colors : List Color)
    (h : words.length = colors.length) : (makeCards words colors).map Card.color = colors := by
  induction words generalizing colors with
  | nil =>
    cases colors with
    | nil => rfl
    | cons c cs => simp at h
  | cons x xs ih =>
    cases colors with
    | nil => simp at h
    | cons c cs =>
      have h1 : xs.length = cs.length := by simpa using h
      simp only [makeCards, List.zipWith_cons_cons, List.map_cons, List.cons.injEq, true_and]
      exact ih cs h1

theorem makeCards_word (words : List String) (colors : List Color)
    (h : words.length = colors.length) : (makeCards words colors).map Card.word = words := by
  induction words generalizing colors with
  | nil => rfl
  | cons x xs ih =>
    cases colors with
    | nil => simp at h
    | cons c cs =>
      have h1 : xs.length = cs.length := by simpa using h
      simp only [makeCards, List.zipWith_cons_cons, List.map_cons, List.cons.injEq, true_and]
      exact ih cs h1

theorem makeCards_unrevealed (words : List String) (colors : List Color) :
    ∀ c ∈ makeCards words colors, c.revealed = false := by
  induction words generalizing colors with
  | nil => simp [makeCards]
  | cons x xs ih =>
    cases colors with
    | nil => simp [makeCards]
    | cons c cs =>
      intro d hd
      simp only [makeCards, List.zipWith_cons_cons, List.mem_cons] at hd
      rcases hd with rfl | hd
      · rfl
      · exact ih cs d hd

theorem colorCount_eq (color : Color) (cards : List Card) :
    colorCount color cards = (cards.map Card.color).countP (fun c => decide (c = color)) := by
  unfold colorCount
  rw [List.countP_map]
  rfl

/-- On a board without revealed cards the unrevealed cards of a colour are all its cards. -/
theorem unrevealedCount_eq_colorCount (color : Color) (cards : List Card)
    (h : ∀ c ∈ cards, c.revealed = false) :
    unrevealedCount color cards = colorCount color cards := by
  unfold unrevealedCount colorCount
  apply List.countP_congr
  intro c hc
  simp [h c hc]

/-- The state an accepted `initializeGame` builds, for admissible arguments. -/
theorem initializeGame_accepted (rand : Nat → Nat) (words : List String)
    (fullWordList : String) (w : World) (hlen : 25 ≤ words.length)
    (hfull : fullWordList ≠ "") :
    initializeGame true rand words fullWordList w =
      ⟨none,
        { view := freshGameState
            (makeCards (words.take 25) (shuffleArray rand cardColors)) fullWordList
          room := some (freshGameState
            (makeCards (words.take 25) (shuffleArray rand cardColors)) fullWordList)
          history := w.history }⟩ := by
  have h1 : ¬ words.length < 25 := by omega
  simp [initializeGame, h1, hfull, updateSupabase, serializeGameState, freshGameState,
    toJson, Guesses.toJson]

theorem take_shuffle_length (rand : Nat → Nat) (words : List String)
    (hlen : 25 ≤ words.length) :
    (words.take 25).length = (shuffleArray rand cardColors).length := by
  rw [shuffleArray_length, List.length_take]
  have : cardColors.length = 25 := by decide
  omega

theorem initializeGame_colorCount (rand : Nat → Nat) (words : List String)
    (hlen : 25 ≤ words.length) (color : Color) :
    colorCount color (makeCards (words.take 25) (shuffleArray rand cardColors)) =
      cardColors.countP (fun c => decide (c = color)) := by
  rw [colorCount_eq, makeCards_color _ _ (take_shuffle_length rand words hlen),
    shuffleArray_countP]

/-- C3 fails as stated: with 25 words but an empty `fullWordList`, `initializeGame` throws
and builds no state; view and room are untouched. -/
theorem initializeGame_requires_fullWordList :
    sampleWords.length = 25 ∧
    initializeGame true (fun _ => 0) sampleWords "" emptyWorld =
      ⟨some GameError.fullWordListRequired, emptyWorld⟩ := by
  decide

/-- C3 (amended): for every word array of length at least 25, every non-empty
`fullWordList` and every outcome of the random draws, an accepted `initializeGame` puts in
view and room a state with exactly 25 cards, the i-th carrying the i-th input word, of which
8 are red, 9 blue, 7 neutral and 1 black, all unrevealed, with `redCardsLeft = 8` and
`blueCardsLeft = 9`. -/
theorem initializeGame_board (rand : Nat → Nat) (words : List String)
    (fullWordList : String) (w : World) (hlen : 25 ≤ words.length)
    (hfull : fullWordList ≠ "") :
    (initializeGame true rand words fullWordList w).error = none ∧
    (initializeGame true rand words fullWordList w).world.room =
      some (initializeGame true rand words fullWordList w).world.view ∧
    (initializeGame true rand words fullWordList w).world.view.cards.length = 25 ∧
    (initializeGame true rand words fullWordList w).world.view.cards.map Card.word =
      words.take 25 ∧
    colorCount .red (initializeGame true rand words fullWordList w).world.view.cards = 8 ∧
    colorCount .blue (initializeGame true rand words fullWordList w).world.view.cards = 9 ∧
    colorCount .neutral (initializeGame true rand words fullWordList w).world.view.cards = 7 ∧
    colorCount .black (initializeGame true rand words fullWordList w).world.view.cards = 1 ∧
    (∀ c ∈ (initializeGame true rand words fullWordList w).world.view.cards,
      c.revealed = false) ∧
    (initializeGame true rand words fullWordList w).world.view.redCardsLeft = 8 ∧
    (initializeGame true rand words fullWordList w).world.view.blueCardsLeft = 9 := by
  rw [initializeGame_accepted rand words fullWordList w hlen hfull]
  have hl := take_shuffle_length rand words hlen
  refine ⟨rfl, rfl, ?_, makeCards_word _ _ hl, ?_, ?_, ?_, ?_, makeCards_unrevealed _ _,
    rfl, rfl⟩
  · have h := congrArg List.length (makeCards_word _ _ hl)
    rw [List.length_map, List.length_take] at h
    show (makeCards _ _).length = 25
    omega
  · exact (initializeGame_colorCount rand words hlen .red).trans (by decide)
  · exact (initializeGame_colorCount rand words hlen .blue).trans (by decide)
  · exact (initializeGame_colorCount rand words hlen .neutral).trans (by decide)
  · exact (initializeGame_colorCount rand words hlen .black).trans (by decide)

/-- C3 (amended) at a concrete input: the sample words with every draw equal to 0. -/
theorem initializeGame_board_witness :
    25 ≤ sampleWords.length ∧ sampleWordList ≠ "" ∧
    colorCount Color.red
      (initializeGame true (fun _ => 0) sampleWords sampleWordList emptyWorld).world.view.cards
      = 8 :=
  ⟨by decide, by decide,
    (initializeGame_board (fun _ => 0) sampleWords sampleWordList emptyWorld
      (by decide) (by decide)).2.2.2.2.1⟩

/-! ## The counters agree with the board -/

/-- Revealing an unrevealed card lowers the unrevealed count of its colour by one. -/
theorem unrevealedCount_set (color : Color) (cards : List Card) (i : Nat) (card : Card)
    (hcard : cards[i]? = some card) (hrev : card.revealed = false) :
    (unrevealedCount color (cards.set i { card with revealed := true }) : Int) =
      if card.color = color then (unrevealedCount color cards : Int) - 1
      else (unrevealedCount color cards : Int) := by
  obtain ⟨hi, hget⟩ := List.getElem?_eq_some.1 hcard
  unfold unrevealedCount
  rw [List.countP_set _ cards i _ hi]
  have hle := List.boole_getElem_le_countP
    (fun c : Card => decide (c.color = color) && !c.revealed) cards i hi
  rw [hget] at hle ⊢
  by_cases hc : card.color = color
  · simp only [hc, hrev, decide_True, Bool.not_false, Bool.and_true, if_true, Bool.not_true,
      Bool.and_false, Bool.false_eq_true, if_false] at hle ⊢
    omega
  · simp [hc]

/-- A reveal of an unrevealed card keeps the counters in agreement with the board. -/
theorem revealedState_countsMatch (s : GameState) (i : Nat) (card : Card)
    (hcard : s.cards[i]? = some card) (hrev : card.revealed = false)
    (h : CountsMatch s) : CountsMatch (revealedState s i card) := by
  obtain ⟨hr, hb⟩ := h
  unfold CountsMatch
  rw [revealedState_cards, revealedState_redCardsLeft, revealedState_blueCardsLeft,
    unrevealedCount_set _ _ _ _ hcard hrev, unrevealedCount_set _ _ _ _ hcard hrev, hr, hb]
  exact ⟨rfl, rfl⟩

theorem countsMatch_congr (s t : GameState) (hc : t.cards = s.cards)
    (hr : t.redCardsLeft = s.redCardsLeft) (hb : t.blueCardsLeft = s.blueCardsLeft)
    (h : CountsMatch s) : CountsMatch t := by
  unfold CountsMatch at h ⊢
  rw [hc, hr, hb]
  exact h

theorem revealCard_synced (accept : Bool) (i : Nat) (w : World) (h : Synced w) :
    Synced (revealCard accept i w).world := by
  cases accept with
  | false => rw [revealCard_rejected]; exact h
  | true =>
    obtain ⟨doc, hroom, hc, hr, hb, hm⟩ := h
    have hsync : Synced w := ⟨doc, hroom, hc, hr, hb, hm⟩
    cases hcard : doc.cards[i]? with
    | none =>
      have : revealCard true i w = ⟨some .typeError, w⟩ := by
        simp [revealCard, hroom, deserialize_cards, hcard]
      rw [this]; exact hsync
    | some card =>
      cases hrev : card.revealed with
      | true => rw [revealCard_revealed true w i doc card hroom hcard hrev]; exact hsync
      | false =>
        rw [revealCard_unrevealed w i doc card hroom hcard hrev]
        refine ⟨_, rfl, rfl, rfl, rfl, ?_⟩
        apply revealedState_countsMatch (deserializeGameState doc) i card hcard hrev
        exact countsMatch_congr w.view _ hc hr hb hm

theorem setClue_synced (accept acceptHistory : Bool) (clue : String) (number : ClueNumber)
    (w : World) (h : Synced w) : Synced (setClue accept acceptHistory clue number w).world := by
  cases accept with
  | false => simpa [setClue] using h
  | true =>
    obtain ⟨hv, hr⟩ := setClue_accepted acceptHistory clue number w
    obtain ⟨doc, _, _, _, _, hm⟩ := h
    refine ⟨_, hr, by rw [hv], by rw [hv], by rw [hv], ?_⟩
    rw [hv]
    exact countsMatch_congr w.view _ rfl rfl rfl hm

theorem endTurn_synced (accept : Bool) (w : World) (h : Synced w) :
    Synced (Codenames.endTurn accept w).world := by
  obtain ⟨doc, hroom, hc, hr, hb, hm⟩ := h
  cases accept with
  | false =>
    exact ⟨doc, hroom, hc, hr, hb, countsMatch_congr w.view _ rfl rfl rfl hm⟩
  | true =>
    exact ⟨_, rfl, rfl, rfl, rfl, countsMatch_congr w.view _ rfl rfl rfl hm⟩

theorem runOps_synced (ops : List Op) (w : World) (h : Synced w) : Synced (runOps ops w) := by
  induction ops generalizing w with
  | nil => exact h
  | cons op ops ih =>
    apply ih
    show Synced (op.apply w)
    cases op with
    | reveal accept i => exact revealCard_synced accept i w h
    | clue accept acceptHistory clue number =>
      exact setClue_synced accept acceptHistory clue number w h
    | endTurn accept => exact endTurn_synced accept w h

/-- A successful `initializeGame` was given at least 25 words, a non-empty word list, and
had its write accepted. -/
theorem initializeGame_ok (accept : Bool) (rand : Nat → Nat) (words : List String)
    (fullWordList : String) (w : World)
    (h : (initializeGame accept rand words fullWordList w).error = none) :
    accept = true ∧ 25 ≤ words.length ∧ fullWordList ≠ "" := by
  unfold initializeGame at h
  split_ifs at h with h1 h2
  cases accept with
  | false => simp [updateSupabase] at h
  | true => exact ⟨rfl, by omega, h2⟩

theorem initializeGame_synced (accept : Bool) (rand : Nat → Nat) (words : List String)
    (fullWordList : String) (w : World)
    (h : (initializeGame accept rand words fullWordList w).error = none) :
    Synced (initializeGame accept rand words fullWordList w).world := by
  obtain ⟨rfl, hlen, hfull⟩ := initializeGame_ok accept rand words fullWordList w h
  rw [initializeGame_accepted rand words fullWordList w hlen hfull]
  refine ⟨_, rfl, rfl, rfl, rfl, ?_⟩
  unfold CountsMatch
  simp only [freshGameState]
  rw [unrevealedCount_eq_colorCount _ _ (makeCards_unrevealed _ _),
    unrevealedCount_eq_colorCount _ _ (makeCards_unrevealed _ _),
    initializeGame_colorCount rand words hlen, initializeGame_colorCount rand words hlen]
  exact ⟨by decide, by decide⟩

/-- C1: in every world reached from a successful `initializeGame` by any sequence of
`revealCard` (with any index), `setClue` and `endTurn` calls, accepted or rejected by the
store, `redCardsLeft` is the number of unrevealed red cards and `blueCardsLeft` the number
of unrevealed blue cards, both in the view and in the state held by the room. -/
theorem counters_match_board (accept : Bool) (rand : Nat → Nat) (words : List String)
    (fullWordList : String) (w0 : World) (ops : List Op)
    (h : (initializeGame accept rand words fullWordList w0).error = none) :
    CountsMatch (runOps ops (initializeGame accept rand words fullWordList w0).world).view ∧
    ∃ doc, (runOps ops (initializeGame accept rand words fullWordList w0).world).room =
        some doc ∧ CountsMatch doc := by
  obtain ⟨doc, hroom, hc, hr, hb, hm⟩ :=
    runOps_synced ops _ (initializeGame_synced accept rand words fullWordList w0 h)
  exact ⟨hm, doc, hroom, countsMatch_congr _ doc hc hr hb hm⟩

/-- C1 at a concrete input: a game on the sample words, then a clue, two reveals and an
end of turn; the counters still agree with the board. -/
theorem counters_match_board_witness :
    (initializeGame true (fun _ => 0) sampleWords sampleWordList emptyWorld).error = none ∧
    CountsMatch (runOps
      [Op.clue true true "sea" (.finite 2), Op.reveal true 3, Op.reveal true 24,
        Op.endTurn true]
      (initializeGame true (fun _ => 0) sampleWords sampleWordList emptyWorld).world).view :=
  ⟨by decide,
    (counters_match_board true (fun _ => 0) sampleWords sampleWordList emptyWorld
      [Op.clue true true "sea" (.finite 2), Op.reveal true 3, Op.reveal true 24,
        Op.endTurn true] (by decide)).1⟩

/-! ## The guess budget of a normal clue -/

/-- The state after a team reveals a card of its own colour under a clue that is not
special, with a finite budget `g`: the budget drops to `g - 1`, and the turn passes
exactly when that is not positive. -/
theorem revealedState_own (s : GameState) (i : Nat) (card : Card) (T : Team) (g : Int)
    (hturn : s.currentTurn = T) (hcol : card.color = T.color)
    (hct : s.clueType ≠ some .special) (hg : s.guessesRemaining = .finite g) :
    (revealedState s i card).guessesRemaining = .finite (g - 1) ∧
    (revealedState s i card).currentTurn = (if g - 1 ≤ 0 then T.other else T) ∧
    (revealedState s i card).canGuess = (if g - 1 ≤ 0 then false else s.canGuess) ∧
    (revealedState s i card).clueType = s.clueType := by
  subst hturn
  have hres : resolveColor (markRevealed s i card) card.color =
      if card.color = .red then
        { markRevealed s i card with redCardsLeft := s.redCardsLeft - 1 }
      else { markRevealed s i card with blueCardsLeft := s.blueCardsLeft - 1 } := by
    rw [hcol]
    cases hT : s.currentTurn <;> simp [resolveColor, markRevealed, Team.color, hT]
  unfold revealedState
  simp only [checkGameEnd_guessesRemaining, checkGameEnd_currentTurn, checkGameEnd_canGuess,
    checkGameEnd_clueType, spendGuess_clueType, resolveColor_clueType]
  rw [hres]
  by_cases hle : g - 1 ≤ 0
  · split_ifs <;>
      simp [spendGuess, markRevealed, hcol, hct, hg, Guesses.dec, Guesses.leZero, hle,
        Team.other]
  · split_ifs <;>
      simp [spendGuess, markRevealed, hcol, hct, hg, Guesses.dec, Guesses.leZero, hle]

/-- A state with a finite budget is its own serialised form. -/
theorem serialize_of_finite (s : GameState) (g : Int)
    (h : s.guessesRemaining = .finite g) : serializeGameState s = s := by
  cases s
  simp_all [serializeGameState]

/-- One accepted reveal of an own card while guessing. -/
theorem revealCard_own_step (T : Team) (g : Int) (w : World) (i : Nat) (card : Card)
    (hG : Guessing T g w) (hcard : w.view.cards[i]? = some card)
    (hcol : card.color = T.color) (hrev : card.revealed = false) :
    (revealCard true i w).world.view.cards =
      w.view.cards.set i { card with revealed := true } ∧
    (1 < g → Guessing T (g - 1) (revealCard true i w).world) ∧
    (g ≤ 1 → (revealCard true i w).world.view.currentTurn = T.other ∧
      (revealCard true i w).world.view.canGuess = false) := by
  obtain ⟨doc, hroom, hview, hturn, hct, hg, hcan, hjson⟩ := hG
  rw [hview] at hcard ⊢
  have hct1 : (deserializeGameState doc).clueType ≠ some .special := by
    show doc.clueType ≠ _
    rw [hct]; decide
  have hg1 : (deserializeGameState doc).guessesRemaining = .finite g := by
    simp [deserializeGameState, hg]
  obtain ⟨h1, h2, h3, h4⟩ :=
    revealedState_own (deserializeGameState doc) i card T g hturn hcol hct1 hg1
  rw [revealCard_unrevealed w i doc card hroom hcard hrev]
  refine ⟨revealedState_cards _ _ _, ?_, ?_⟩
  · intro hlt
    have hle : ¬ g - 1 ≤ 0 := by omega
    have hj : toJson (revealedState (deserializeGameState doc) i card) =
        revealedState (deserializeGameState doc) i card := by
      apply toJson_eq_self
      · rw [h1]; simp
      · rw [revealedState_currentClue]
        exact (of_toJson_eq_self doc hjson).2
    rw [serialize_of_finite _ _ h1, hj]
    refine ⟨_, rfl, rfl, ?_, ?_, h1, ?_, hj⟩
    · show (revealedState (deserializeGameState doc) i card).currentTurn = T
      rw [h2, if_neg hle]
    · show (revealedState (deserializeGameState doc) i card).clueType = _
      rw [h4]; exact hct
    · show (revealedState (deserializeGameState doc) i card).canGuess = _
      rw [h3, if_neg hle]; exact hcan
  · intro hle1
    have hle : g - 1 ≤ 0 := by omega
    exact ⟨by rw [h2, if_pos hle], by rw [h3, if_pos hle]⟩

theorem revealAll_cons (i : Nat) (rest : List Nat) (w : World) :
    revealAll (i :: rest) w = revealAll rest (revealCard true i w).world := rfl

/-- Consecutive accepted reveals of distinct unrevealed own cards while guessing with budget
`g`: as long as fewer than `g` cards were revealed the team keeps guessing with the budget
lowered by their number; the `g`-th reveal passes the turn. -/
theorem revealAll_own (T : Team) (indices : List Nat) :
    ∀ (g : Int) (w : World), Guessing T g w → indices.Nodup →
      (∀ i ∈ indices, ∃ c, w.view.cards[i]? = some c ∧ c.color = T.color ∧
        c.revealed = false) →
      (indices.length : Int) ≤ g →
      ((indices.length : Int) < g →
        Guessing T (g - indices.length) (revealAll indices w)) ∧
      ((indices.length : Int) = g → 0 < indices.length →
        (revealAll indices w).view.currentTurn = T.other ∧
        (revealAll indices w).view.canGuess = false) := by
  induction indices with
  | nil =>
    intro g w hG _ _ _
    refine ⟨fun _ => ?_, fun _ h => absurd h (by simp)⟩
    simpa [revealAll, runOps] using hG
  | cons i rest ih =>
    intro g w hG hnd hcards hlen
    obtain ⟨c, hc, hcol, hrev⟩ := hcards i (List.mem_cons_self _ _)
    obtain ⟨hset, hkeep, hpass⟩ := revealCard_own_step T g w i c hG hc hcol hrev
    rw [List.nodup_cons] at hnd
    obtain ⟨hnot, hnd1⟩ := hnd
    rw [revealAll_cons]
    simp only [List.length_cons, Nat.cast_add, Nat.cast_one] at hlen ⊢
    by_cases h1 : 1 < g
    · have hrest : ∀ j ∈ rest, ∃ d, (revealCard true i w).world.view.cards[j]? = some d ∧
          d.color = T.color ∧ d.revealed = false := by
        intro j hj
        obtain ⟨d, hd, hdc, hdr⟩ := hcards j (List.mem_cons_of_mem _ hj)
        have hne : i ≠ j := fun h => hnot (h ▸ hj)
        refine ⟨d, ?_, hdc, hdr⟩
        rw [hset, List.getElem?_set_ne hne]
        exact hd
      obtain ⟨ih1, ih2⟩ := ih (g - 1) _ (hkeep h1) hnd1 hrest (by omega)
      refine ⟨fun hlt => ?_, fun heq _ => ?_⟩
      · have h := ih1 (by omega)
        have e : g - 1 - (rest.length : Int) = g - ((rest.length : Int) + 1) := by ring
        rw [e] at h
        exact h
      · exact ih2 (by omega) (by omega)
    · have hg : g ≤ 1 := by omega
      have hnil : rest = [] := by
        apply List.eq_nil_of_length_eq_zero
        omega
      subst hnil
      refine ⟨fun hlt => absurd hlt (by simp; omega), fun _ _ => ?_⟩
      exact hpass hg

/-- After an accepted normal clue `n` (1..9) on `T`'s turn, `T` is guessing with budget
`n + 1`. -/
theorem setClue_guessing (T : Team) (n : Nat) (acceptHistory : Bool) (clue : String)
    (w : World) (hturn : w.view.currentTurn = T) (h1 : 1 ≤ n) :
    Guessing T ((n : Int) + 1) (setClue true acceptHistory clue (.finite n) w).world := by
  obtain ⟨hv, hr⟩ := setClue_accepted acceptHistory clue (.finite n) w
  obtain ⟨hg, hct, hcan, _⟩ :=
    setClue_finite_mapping acceptHistory clue (n : Int) w (by omega)
  rw [hv] at hg hct hcan
  exact ⟨_, hr, hv, hturn, hct, hg, hcan, toJson_toJson _⟩

/-- C5: after an accepted clue with number `n` in 1..9 on team `T`'s turn, `n + 1` accepted
reveals of distinct unrevealed cards of `T`'s colour behave as follows: after each of the
first `n` reveals it is still `T`'s turn, `canGuess` is still true and `guessesRemaining`
is one lower than before (`n + 1 - k` after `k` reveals); after reveal `n + 1` it is the
other team's turn and `canGuess` is false. -/
theorem normal_clue_budget (T : Team) (n : Nat) (acceptHistory : Bool) (clue : String)
    (w : World) (indices : List Nat) (hturn : w.view.currentTurn = T)
    (h1 : 1 ≤ n) (_h9 : n ≤ 9) (hlen : indices.length = n + 1) (hnd : indices.Nodup)
    (hcards : ∀ i ∈ indices, ∃ c, w.view.cards[i]? = some c ∧ c.color = T.color ∧
      c.revealed = false) (k : Nat) :
    (k ≤ n →
      (revealAll (indices.take k)
        (setClue true acceptHistory clue (.finite n) w).world).view.currentTurn = T ∧
      (revealAll (indices.take k)
        (setClue true acceptHistory clue (.finite n) w).world).view.canGuess = true ∧
      (revealAll (indices.take k)
        (setClue true acceptHistory clue (.finite n) w).world).view.guessesRemaining =
          .finite ((n : Int) + 1 - k)) ∧
    (k = n + 1 →
      (revealAll (indices.take k)
        (setClue true acceptHistory clue (.finite n) w).world).view.currentTurn = T.other ∧
      (revealAll (indices.take k)
        (setClue true acceptHistory clue (.finite n) w).world).view.canGuess = false) := by
  have hG := setClue_guessing T n acceptHistory clue w hturn h1
  have hcards1 : ∀ i ∈ indices.take k, ∃ c,
      (setClue true acceptHistory clue (.finite n) w).world.view.cards[i]? = some c ∧
      c.color = T.color ∧ c.revealed = false := by
    intro i hi
    rw [(setClue_accepted acceptHistory clue (.finite n) w).1]
    exact hcards i (List.mem_of_mem_take hi)
  have hnd1 : (indices.take k).Nodup := hnd.sublist (List.take_sublist _ _)
  have hlen1 : (indices.take k).length = min k (n + 1) := by
    rw [List.length_take, hlen]
  constructor
  · intro hk
    have hk1 : (indices.take k).length = k := by omega
    obtain ⟨doc, _, hview, ht, _, hg, hcan, _⟩ :=
      (revealAll_own T (indices.take k) _ _ hG hnd1 hcards1 (by omega)).1 (by omega)
    rw [hview, hk1] at *
    exact ⟨ht, hcan, hg⟩
  · intro hk
    have hk1 : (indices.take k).length = n + 1 := by omega
    exact (revealAll_own T (indices.take k) _ _ hG hnd1 hcards1 (by omega)).2
      (by rw [hk1]; push_cast; ring) (by omega)

/-- C5 at a concrete input: after the clue `sea 2` on blue's turn, the blue cards 8, 9
and 10 are revealed; blue keeps the turn after the first two reveals and loses it, with
`canGuess = false`, after the third. -/
theorem normal_clue_budget_witness :
    (revealAll [8, 9] clueWorld).view.currentTurn = Team.blue ∧
    (revealAll [8, 9] clueWorld).view.guessesRemaining = Guesses.finite 1 ∧
    (revealAll [8, 9, 10] clueWorld).view.currentTurn = Team.red ∧
    (revealAll [8, 9, 10] clueWorld).view.canGuess = false :=
  have h := normal_clue_budget Team.blue 2 true "sea" startWorld [8, 9, 10] rfl
    (by decide) (by decide) rfl (by decide) (by decide)
  ⟨(h 2).1 (by decide) |>.1, (h 2).1 (by decide) |>.2.2, (h 3).2 rfl |>.1,
    (h 3).2 rfl |>.2⟩

/-! ## `canGuess` and special clues -/

theorem spendGuess_canGuess_false (s : GameState) (c : Color) (h : s.canGuess = false) :
    (spendGuess s c).canGuess = false := by
  unfold spendGuess
  dsimp only
  split_ifs <;> first | rfl | exact h

theorem resolveColor_canGuess_false (s : GameState) (c : Color) (h : s.canGuess = false) :
    (resolveColor s c).canGuess = false := by
  cases c <;> simp only [resolveColor] <;> (try split_ifs) <;> first | rfl | exact h

/-- A reveal never sets `canGuess`. -/
theorem revealedState_canGuess_false (s : GameState) (i : Nat) (card : Card)
    (h : s.canGuess = false) : (revealedState s i card).canGuess = false := by
  unfold revealedState
  rw [checkGameEnd_canGuess]
  exact spendGuess_canGuess_false _ _ (resolveColor_canGuess_false _ _ h)

/-- C11 fails as stated: in `awaitingClueWorld` no clue is active (`canGuess = false`), yet
an accepted reveal of the unrevealed neutral card 17 marks the card revealed and writes a
new state to the view and the room. -/
theorem revealCard_ignores_canGuess :
    awaitingClueWorld.room.map (fun s => (s.canGuess, s.gameOver)) = some (false, false) ∧
    awaitingClueWorld.view.cards[17]? = some ⟨"robot", Color.neutral, false⟩ ∧
    (revealCard true 17 awaitingClueWorld).error = none ∧
    (revealCard true 17 awaitingClueWorld).world ≠ awaitingClueWorld ∧
    (revealCard true 17 awaitingClueWorld).world.view.cards[17]? =
      some ⟨"robot", Color.neutral, true⟩ ∧
    (revealCard true 17 awaitingClueWorld).world.room =
      some (revealCard true 17 awaitingClueWorld).world.view := by
  decide

/-- C11 (amended): when `canGuess` is false, a reveal of an already revealed card leaves
the world unchanged, while an accepted reveal of an unrevealed card is carried out all the
same: the card is marked revealed, a red or blue card lowers the counter of its colour by
one, a neutral card passes the turn and zeroes the budget, the assassin ends the game and
(with both counters non-zero) makes the team not on turn the winner, a card of the other
team's colour zeroes the budget, and a counter at zero ends the game with a winner.
`canGuess` is still false afterwards, and the room holds the serialised new state. -/
theorem revealCard_without_clue (w : World) (i : Nat) (doc : GameState) (card : Card)
    (hroom : w.room = some doc) (hcard : doc.cards[i]? = some card)
    (hcan : doc.canGuess = false) :
    (card.revealed = true → ∀ accept, revealCard accept i w = ⟨none, w⟩) ∧
    (card.revealed = false →
      ∃ next, revealCard true i w =
          ⟨none, ⟨next, some (toJson (serializeGameState next)), w.history⟩⟩ ∧
        next.canGuess = false ∧
        next.cards = doc.cards.set i { card with revealed := true } ∧
        next.redCardsLeft =
          (if card.color = .red then doc.redCardsLeft - 1 else doc.redCardsLeft) ∧
        next.blueCardsLeft =
          (if card.color = .blue then doc.blueCardsLeft - 1 else doc.blueCardsLeft) ∧
        (card.color = .neutral →
          next.currentTurn = doc.currentTurn.other ∧ next.guessesRemaining = .finite 0) ∧
        (card.color = .black →
          next.gameOver = true ∧ next.currentTurn = doc.currentTurn ∧
          (doc.redCardsLeft ≠ 0 → doc.blueCardsLeft ≠ 0 →
            next.winner = some doc.currentTurn.other)) ∧
        (∀ T : Team, card.color = T.color → doc.currentTurn ≠ T →
          next.currentTurn = doc.currentTurn ∧ next.guessesRemaining = .finite 0) ∧
        (next.redCardsLeft = 0 → next.gameOver = true ∧ next.winner = some .red) ∧
        (next.redCardsLeft ≠ 0 → next.blueCardsLeft = 0 →
          next.gameOver = true ∧ next.winner = some .blue)) := by
  refine ⟨fun hrev accept => revealCard_revealed accept w i doc card hroom hcard hrev, ?_⟩
  intro hrev
  refine ⟨revealedState (deserializeGameState doc) i card,
    revealCard_unrevealed w i doc card hroom hcard hrev,
    revealedState_canGuess_false (deserializeGameState doc) i card hcan,
    revealedState_cards _ _ _,
    revealedState_redCardsLeft _ _ _, revealedState_blueCardsLeft _ _ _,
    fun hcol => ?_, fun hcol => ?_, fun T hcol hturn => ?_,
    (revealedState_winCheck (deserializeGameState doc) i card).1,
    (revealedState_winCheck (deserializeGameState doc) i card).2⟩
  · obtain ⟨h1, _, h3⟩ :=
      revealedState_neutral_fields (deserializeGameState doc) i card hcol
    exact ⟨h1, h3⟩
  · obtain ⟨h1, _, h3, _, h5⟩ :=
      revealedState_black_fields (deserializeGameState doc) i card hcol
    exact ⟨h1, h3, h5⟩
  · obtain ⟨h1, _, h3⟩ :=
      revealedState_opponent_fields (deserializeGameState doc) i card T hcol hturn
    exact ⟨h1, h3⟩

/-- C11 (amended) at a concrete input: on red's turn with no clue active, revealing the
blue card 8 reveals it and lowers `blueCardsLeft` from 9 to 8; `canGuess` is still false. -/
theorem revealCard_without_clue_witness :
    awaitingClueWorld.view.canGuess = false ∧ awaitingClueWorld.view.blueCardsLeft = 9 ∧
    ∃ next, (revealCard true 8 awaitingClueWorld).world.view = next ∧
      next.cards = awaitingClueWorld.view.cards.set 8 ⟨"ocean", Color.blue, true⟩ ∧
      next.blueCardsLeft = 8 ∧ next.canGuess = false := by
  obtain ⟨next, h, hcan, hcards, _, hblue, _⟩ :=
    (revealCard_without_clue awaitingClueWorld 8 awaitingClueWorld.view
      ⟨"ocean", Color.blue, false⟩ (by decide) (by decide) (by decide)).2 rfl
  exact ⟨by decide, by decide, next, by rw [h], hcards, hblue.trans (by decide), hcan⟩

/-- The state after a team reveals a card of its own colour under a special clue: the card
is marked, the team's counter drops by one, and the win check runs; no guess is spent. -/
theorem revealedState_special (s : GameState) (i : Nat) (card : Card)
    (hcol : card.color = s.currentTurn.color) (hct : s.clueType = some .special) :
    revealedState s i card =
      checkGameEnd
        (match s.currentTurn with
         | .red => { markRevealed s i card with redCardsLeft := s.redCardsLeft - 1 }
         | .blue => { markRevealed s i card with blueCardsLeft := s.blueCardsLeft - 1 }) := by
  unfold revealedState
  congr 1
  rw [hcol]
  cases hT : s.currentTurn <;>
    simp [resolveColor, spendGuess, markRevealed, Team.color, hT, hct]

theorem revealedState_special_red (s : GameState) (i : Nat) (card : Card)
    (hcol : card.color = .red) (hct : s.clueType = some .special)
    (hturn : s.currentTurn = .red) :
    revealedState s i card =
      checkGameEnd { markRevealed s i card with redCardsLeft := s.redCardsLeft - 1 } := by
  rw [revealedState_special s i card (by rw [hturn]; exact hcol) hct, hturn]

theorem revealedState_special_blue (s : GameState) (i : Nat) (card : Card)
    (hcol : card.color = .blue) (hct : s.clueType = some .special)
    (hturn : s.currentTurn = .blue) :
    revealedState s i card =
      checkGameEnd { markRevealed s i card with blueCardsLeft := s.blueCardsLeft - 1 } := by
  rw [revealedState_special s i card (by rw [hturn]; exact hcol) hct, hturn]

/-- Under a special clue on team `T`'s turn, with the other team's counter non-zero, an
accepted reveal of an unrevealed card of `T`'s colour leaves `currentTurn = T`, `canGuess`
and `guessesRemaining` as they were; the card is marked revealed, `T`'s counter drops by
one, the other counter, the clue, the clue type and the word list are unchanged, and
`gameOver` and `winner` change exactly when `T`'s counter reaches zero (then `winner = T`). -/
theorem revealCard_special_of_nonzero (w : World) (i : Nat) (doc : GameState) (card : Card)
    (T : Team) (hroom : w.room = some doc) (hcard : doc.cards[i]? = some card)
    (hrev : card.revealed = false) (hcol : card.color = T.color)
    (hover : doc.gameOver = false) (hct : doc.clueType = some .special)
    (hturn : doc.currentTurn = T) (hother : doc.cardsLeft T.other ≠ 0) :
    (revealCard true i w).error = none ∧
    (revealCard true i w).world.view.currentTurn = T ∧
    (revealCard true i w).world.view.canGuess = doc.canGuess ∧
    (revealCard true i w).world.view.guessesRemaining =
      (deserializeGameState doc).guessesRemaining ∧
    (revealCard true i w).world.view.cards = doc.cards.set i { card with revealed := true } ∧
    (revealCard true i w).world.view.cardsLeft T = doc.cardsLeft T - 1 ∧
    (revealCard true i w).world.view.cardsLeft T.other = doc.cardsLeft T.other ∧
    (revealCard true i w).world.view.currentClue = doc.currentClue ∧
    (revealCard true i w).world.view.clueType = doc.clueType ∧
    (revealCard true i w).world.view.fullWordList = doc.fullWordList ∧
    (doc.cardsLeft T ≠ 1 →
      (revealCard true i w).world.view.gameOver = false ∧
      (revealCard true i w).world.view.winner = doc.winner) ∧
    (doc.cardsLeft T = 1 →
      (revealCard true i w).world.view.gameOver = true ∧
      (revealCard true i w).world.view.winner = some T) ∧
    (revealCard true i w).world.room =
      some (toJson (serializeGameState (revealCard true i w).world.view)) := by
  rw [revealCard_unrevealed w i doc card hroom hcard hrev]
  cases T with
  | red =>
    have hb : doc.blueCardsLeft ≠ 0 := hother
    rw [revealedState_special_red (deserializeGameState doc) i card hcol hct hturn]
    refine ⟨rfl, ?_, ?_, ?_, ?_, ?_, ?_, ?_, ?_, ?_, ?_, ?_, rfl⟩
    · exact (checkGameEnd_currentTurn _).trans hturn
    · exact checkGameEnd_canGuess _
    · exact checkGameEnd_guessesRemaining _
    · exact checkGameEnd_cards _
    · exact checkGameEnd_redCardsLeft _
    · exact checkGameEnd_blueCardsLeft _
    · exact checkGameEnd_currentClue _
    · exact checkGameEnd_clueType _
    · exact checkGameEnd_fullWordList _
    · intro hne
      have hne1 : doc.redCardsLeft ≠ 1 := hne
      have key := checkGameEnd_of_nonzero
        { markRevealed (deserializeGameState doc) i card with
          redCardsLeft := (deserializeGameState doc).redCardsLeft - 1 }
        (by show doc.redCardsLeft - 1 ≠ 0; omega) hb
      exact ⟨(congrArg GameState.gameOver key).trans hover,
        (congrArg GameState.winner key).trans rfl⟩
    · intro hone
      have hone1 : doc.redCardsLeft = 1 := hone
      exact checkGameEnd_red
        { markRevealed (deserializeGameState doc) i card with
          redCardsLeft := (deserializeGameState doc).redCardsLeft - 1 }
        (by show doc.redCardsLeft - 1 = 0; omega)
  | blue =>
    have hr : doc.redCardsLeft ≠ 0 := hother
    rw [revealedState_special_blue (deserializeGameState doc) i card hcol hct hturn]
    refine ⟨rfl, ?_, ?_, ?_, ?_, ?_, ?_, ?_, ?_, ?_, ?_, ?_, rfl⟩
    · exact (checkGameEnd_currentTurn _).trans hturn
    · exact checkGameEnd_canGuess _
    · exact checkGameEnd_guessesRemaining _
    · exact checkGameEnd_cards _
    · exact checkGameEnd_blueCardsLeft _
    · exact checkGameEnd_redCardsLeft _
    · exact checkGameEnd_currentClue _
    · exact checkGameEnd_clueType _
    · exact checkGameEnd_fullWordList _
    · intro hne
      have hne1 : doc.blueCardsLeft ≠ 1 := hne
      have key := checkGameEnd_of_nonzero
        { markRevealed (deserializeGameState doc) i card with
          blueCardsLeft := (deserializeGameState doc).blueCardsLeft - 1 }
        hr (by show doc.blueCardsLeft - 1 ≠ 0; omega)
      exact ⟨(congrArg GameState.gameOver key).trans hover,
        (congrArg GameState.winner key).trans rfl⟩
    · intro hone
      have hone1 : doc.blueCardsLeft = 1 := hone
      exact checkGameEnd_blue
        { markRevealed (deserializeGameState doc) i card with
          blueCardsLeft := (deserializeGameState doc).blueCardsLeft - 1 }
        hr (by show doc.blueCardsLeft - 1 = 0; omega)

/-! ## Validation, store failures and serialisation -/

/-- C13 (evaluation at the failing inputs): with an empty clue text, and with the number 12,
an accepted `setClue` rejects with `invalidGameAction`, but only after the clue document has
been written to the room and reflected in the view; no history row is written. -/
theorem setClue_validates_after_write :
    validateGameAction (.clue Team.blue "" (.finite 3)) = false ∧
    (setClue true true "" (.finite 3) startWorld).error =
      some GameError.invalidGameAction ∧
    (setClue true true "" (.finite 3) startWorld).world.room ≠ startWorld.room ∧
    (setClue true true "" (.finite 3) startWorld).world.view ≠ startWorld.view ∧
    (setClue true true "" (.finite 3) startWorld).world.view.currentClue =
      some ⟨"", .finite 3⟩ ∧
    (setClue true true "" (.finite 3) startWorld).world.view.canGuess = true ∧
    (setClue true true "" (.finite 3) startWorld).world.history = [] ∧
    validateGameAction (.clue Team.blue "sea" (.finite 12)) = false ∧
    (setClue true true "sea" (.finite 12) startWorld).error =
      some GameError.invalidGameAction ∧
    (setClue true true "sea" (.finite 12) startWorld).world.view.guessesRemaining =
      Guesses.finite 13 ∧
    (setClue true true "sea" (.finite 12) startWorld).world.room =
      some (setClue true true "sea" (.finite 12) startWorld).world.view := by
  decide

/-- When the store rejects the room write, `initializeGame`, `revealCard` (of an unrevealed
card), `setClue` and `resetGame` reject with an error and leave the world as it was. -/
theorem rejected_write_aborts (w : World) :
    (∀ rand words fullWordList,
      (initializeGame false rand words fullWordList w).error ≠ none ∧
      (initializeGame false rand words fullWordList w).world = w) ∧
    (∀ i doc card, w.room = some doc → doc.cards[i]? = some card → card.revealed = false →
      revealCard false i w = ⟨some .writeError, w⟩) ∧
    (∀ acceptHistory clue number,
      setClue false acceptHistory clue number w = ⟨some .writeError, w⟩) ∧
    (∀ acceptHistory acceptPlayers sortWords sortColors,
      (resetGame false acceptHistory acceptPlayers sortWords sortColors w).error ≠ none ∧
      (resetGame false acceptHistory acceptPlayers sortWords sortColors w).world = w) := by
  refine ⟨?_, ?_, ?_, ?_⟩
  · intro rand words fullWordList
    unfold initializeGame
    split_ifs <;> simp [updateSupabase]
  · intro i doc card hroom hcard hrev
    simp [revealCard, hroom, deserialize_cards, hcard, hrev, updateSupabase]
  · intro acceptHistory clue number
    simp [setClue]
  · intro acceptHistory acceptPlayers sortWords sortColors
    unfold resetGame
    cases w.room with
    | none => simp
    | some doc => cases hf : doc.fullWordList <;> simp [hf]

/-- C14 (evaluation at the failing input): when the store rejects the room write,
`endTurn` still resolves without error and the view has already moved to the new state
(the turn passed to red, clue cleared), while the room keeps the old one. -/
theorem endTurn_reflects_before_commit :
    (endTurn false clueWorld).error = none ∧
    (endTurn false clueWorld).world.room = clueWorld.room ∧
    (endTurn false clueWorld).world.view ≠ clueWorld.view ∧
    clueWorld.view.currentTurn = Team.blue ∧
    (endTurn false clueWorld).world.view.currentTurn = Team.red ∧
    (endTurn false clueWorld).world.view.currentClue = none ∧
    (endTurn false clueWorld).world.view.canGuess = false := by
  decide

/-- C15: for every state whose `guessesRemaining` is a number or infinite, deserialising the
serialised state gives the state back; an infinite budget is serialised as the string
marker, every other field unchanged, and read back as infinite. -/
theorem serialize_roundtrip (s : GameState)
    (h : (∃ n, s.guessesRemaining = .finite n) ∨ s.guessesRemaining = .infinity) :
    deserializeGameState (serializeGameState s) = s ∧
    (s.guessesRemaining = .infinity →
      serializeGameState s = { s with guessesRemaining := .token } ∧
      (serializeGameState s).guessesRemaining ≠ .infinity ∧
      (deserializeGameState (serializeGameState s)).guessesRemaining = .infinity) := by
  cases s with
  | mk cards currentTurn blueCardsLeft redCardsLeft gameOver winner currentClue
      guessesRemaining canGuess clueType fullWordList =>
    rcases h with ⟨n, hn⟩ | hinf
    · simp only at hn
      subst hn
      simp [serializeGameState, deserializeGameState]
    · simp only at hinf
      subst hinf
      simp [serializeGameState, deserializeGameState]

/-- C15 at a concrete input: the state after the unlimited clue `sea`. -/
theorem serialize_roundtrip_witness :
    (clueDocument startState "sea" ClueNumber.infinity).guessesRemaining = Guesses.infinity ∧
    (serializeGameState (clueDocument startState "sea" ClueNumber.infinity)).guessesRemaining
      = Guesses.token ∧
    deserializeGameState
        (serializeGameState (clueDocument startState "sea" ClueNumber.infinity)) =
      clueDocument startState "sea" ClueNumber.infinity :=
  ⟨rfl, rfl,
    (serialize_roundtrip (clueDocument startState "sea" ClueNumber.infinity)
      (Or.inr rfl)).1⟩

/-- C16 (evaluation at the failing inputs): for the clue numbers 0 and unlimited, the
payload `setClue` hands to the room update holds the in-memory infinity as
`guessesRemaining`, not the string marker, so it differs from the serialised form of the
state, which is what `updateSupabase` would have written; an unlimited `currentClue.number`
is handed over as the in-memory infinity too. What the room then keeps is `null` in both
places, and reading the room back with `deserializeGameState` restores neither. -/
theorem setClue_writes_raw_infinity :
    (clueDocument startState "sea" (.finite 0)).guessesRemaining = Guesses.infinity ∧
    clueDocument startState "sea" (.finite 0) ≠
      serializeGameState (clueDocument startState "sea" (.finite 0)) ∧
    (serializeGameState (clueDocument startState "sea" (.finite 0))).guessesRemaining =
      Guesses.token ∧
    (updateSupabase true (clueDocument startState "sea" (.finite 0))
        startWorld).toOption.map (fun w => w.room.map GameState.guessesRemaining) =
      some (some Guesses.token) ∧
    (setClue true true "sea" (.finite 0) startWorld).error = none ∧
    (setClue true true "sea" (.finite 0) startWorld).world.room.map
        GameState.guessesRemaining = some Guesses.null ∧
    (setClue true true "sea" (.finite 0) startWorld).world.room.map
        (fun d => (deserializeGameState d).guessesRemaining) = some Guesses.null ∧
    (clueDocument startState "sea" .infinity).guessesRemaining = Guesses.infinity ∧
    (clueDocument startState "sea" .infinity).currentClue =
      some ⟨"sea", ClueNumber.infinity⟩ ∧
    (setClue true true "sea" .infinity startWorld).error = none ∧
    (setClue true true "sea" .infinity startWorld).world.room.map
        GameState.guessesRemaining = some Guesses.null ∧
    (setClue true true "sea" .infinity startWorld).world.room.map
        GameState.currentClue = some (some ⟨"sea", ClueNumber.null⟩) ∧
    (setClue true true "sea" .infinity startWorld).world.room.map
        (fun d => (deserializeGameState d).guessesRemaining) = some Guesses.null := by
  decide

/-! ## Properties of `resetGame` -/

/-- The state a fully accepted `resetGame` puts in room and view. -/
theorem resetGame_accepted (sortWords : List String → List String)
    (sortColors : List Color → List Color) (w : World) (doc : GameState)
    (fullWordList : String) (hroom : w.room = some doc)
    (hfull : doc.fullWordList = some fullWordList) :
    resetGame true true true sortWords sortColors w =
      ⟨none,
        { view := freshGameState
            (makeCards ((sortWords (allWords fullWordList)).take 25) (sortColors cardColors))
            fullWordList
          room := some (freshGameState
            (makeCards ((sortWords (allWords fullWordList)).take 25) (sortColors cardColors))
            fullWordList)
          history := [] }⟩ := by
  simp [resetGame, hroom, hfull, toJson, freshGameState, Guesses.toJson]

set_option maxRecDepth 8000 in
/-- The sample worlds are worlds the store produces: a game initialised with the identity
shuffle, then a clue, an end of turn, or the reveal of the assassin. -/
theorem sample_worlds_reachable :
    startWorld = runCalls [Call.init true id sampleWords sampleWordList] emptyWorld ∧
    shortListWorld =
      runCalls [Call.init true id sampleWords "apple\nriver\nstone"] emptyWorld ∧
    clueWorld = runCalls [Call.clue true true "sea" (.finite 2)] startWorld ∧
    awaitingClueWorld = runCalls [Call.endTurn true] clueWorld ∧
    finishedWorld = runCalls [Call.reveal true 24] startWorld := by
  decide

/-- C17 (evaluation at the failing input): the room holds a game whose full word list has
three lines only; a fully accepted `resetGame` raises no error and builds a board of three
cards, all red, while setting `redCardsLeft = 8` and `blueCardsLeft = 9`. -/
theorem resetGame_short_word_list :
    shortListWorld.room.map GameState.fullWordList = some (some "apple\nriver\nstone") ∧
    allWords "apple\nriver\nstone" = ["apple", "river", "stone"] ∧
    (resetGame true true true id id shortListWorld).error = none ∧
    (resetGame true true true id id shortListWorld).world.view.cards =
      [⟨"apple", Color.red, false⟩, ⟨"river", Color.red, false⟩,
        ⟨"stone", Color.red, false⟩] ∧
    (resetGame true true true id id shortListWorld).world.view.redCardsLeft = 8 ∧
    (resetGame true true true id id shortListWorld).world.view.blueCardsLeft = 9 ∧
    (resetGame true true true id id shortListWorld).world.room =
      some (resetGame true true true id id shortListWorld).world.view := by
  decide

/-- When the full word list kept in the room has at least 25 admissible lines (non-empty
after trimming, at most 30 characters) and each random sort returns a permutation of its
input, a fully accepted `resetGame` puts in view and room a state with
exactly 25 unrevealed cards, 8 red, 9 blue, 7 neutral and 1 black, with `redCardsLeft = 8`,
`blueCardsLeft = 9`, `gameOver = false`, no winner, no clue, `guessesRemaining = 0`,
`canGuess = false` and the same `fullWordList`. -/
theorem resetGame_board (sortWords : List String → List String)
    (sortColors : List Color → List Color) (w : World) (doc : GameState)
    (fullWordList : String) (hroom : w.room = some doc)
    (hfull : doc.fullWordList = some fullWordList)
    (hwords : 25 ≤ (allWords fullWordList).length)
    (hsortWords : (sortWords (allWords fullWordList)).Perm (allWords fullWordList))
    (hsortColors : (sortColors cardColors).Perm cardColors) :
    (resetGame true true true sortWords sortColors w).error = none ∧
    (resetGame true true true sortWords sortColors w).world.room =
      some (resetGame true true true sortWords sortColors w).world.view ∧
    (resetGame true true true sortWords sortColors w).world.view.cards.length = 25 ∧
    (∀ c ∈ (resetGame true true true sortWords sortColors w).world.view.cards,
      c.revealed = false) ∧
    colorCount .red (resetGame true true true sortWords sortColors w).world.view.cards = 8 ∧
    colorCount .blue (resetGame true true true sortWords sortColors w).world.view.cards = 9 ∧
    colorCount .neutral (resetGame true true true sortWords sortColors w).world.view.cards
      = 7 ∧
    colorCount .black (resetGame true true true sortWords sortColors w).world.view.cards = 1 ∧
    (resetGame true true true sortWords sortColors w).world.view.redCardsLeft = 8 ∧
    (resetGame true true true sortWords sortColors w).world.view.blueCardsLeft = 9 ∧
    (resetGame true true true sortWords sortColors w).world.view.gameOver = false ∧
    (resetGame true true true sortWords sortColors w).world.view.winner = none ∧
    (resetGame true true true sortWords sortColors w).world.view.currentClue = none ∧
    (resetGame true true true sortWords sortColors w).world.view.guessesRemaining =
      .finite 0 ∧
    (resetGame true true true sortWords sortColors w).world.view.canGuess = false ∧
    (resetGame true true true sortWords sortColors w).world.view.fullWordList =
      doc.fullWordList := by
  rw [resetGame_accepted sortWords sortColors w doc fullWordList hroom hfull]
  have hlen : ((sortWords (allWords fullWordList)).take 25).length =
      (sortColors cardColors).length := by
    rw [List.length_take, hsortWords.length_eq, hsortColors.length_eq]
    have : cardColors.length = 25 := by decide
    omega
  have hcount : ∀ color : Color,
      colorCount color
        (makeCards ((sortWords (allWords fullWordList)).take 25) (sortColors cardColors)) =
      cardColors.countP (fun c => decide (c = color)) := by
    intro color
    rw [colorCount_eq, makeCards_color _ _ hlen]
    exact hsortColors.countP_eq _
  refine ⟨rfl, rfl, ?_, makeCards_unrevealed _ _, ?_, ?_, ?_, ?_, rfl, rfl, rfl, rfl, rfl,
    rfl, rfl, hfull.symm⟩
  · have h := congrArg List.length (makeCards_color _ _ hlen)
    rw [List.length_map, hsortColors.length_eq] at h
    exact h.trans (by decide)
  · exact (hcount .red).trans (by decide)
  · exact (hcount .blue).trans (by decide)
  · exact (hcount .neutral).trans (by decide)
  · exact (hcount .black).trans (by decide)

/-- The sample game, whose word list has 25 words, is reset after the clue `sea 2`, both
sorts reversing their input. -/
theorem resetGame_board_example :
    25 ≤ (allWords sampleWordList).length ∧
    (resetGame true true true List.reverse List.reverse clueWorld).world.view.cards.length
      = 25 ∧
    colorCount Color.blue
      (resetGame true true true List.reverse List.reverse clueWorld).world.view.cards = 9 ∧
    (resetGame true true true List.reverse List.reverse clueWorld).world.view.canGuess
      = false :=
  have h := resetGame_board List.reverse List.reverse clueWorld clueWorld.view
    sampleWordList (by decide) (by decide) (by decide) (List.reverse_perm _)
    (List.reverse_perm _)
  ⟨by decide, h.2.2.1, h.2.2.2.2.2.1, h.2.2.2.2.2.2.2.2.2.2.2.2.2.2.1⟩

/-! ## What every world produced by the store satisfies -/

theorem endChecked_congr (s t : GameState) (hr : t.redCardsLeft = s.redCardsLeft)
    (hb : t.blueCardsLeft = s.blueCardsLeft) (hg : t.gameOver = s.gameOver)
    (h : EndChecked s) : EndChecked t := by
  unfold EndChecked at h ⊢
  rw [hr, hb, hg]
  exact h

/-- The win check leaves no zero counter without `gameOver`. -/
theorem checkGameEnd_endChecked (s : GameState) : EndChecked (checkGameEnd s) := by
  unfold EndChecked checkGameEnd
  split_ifs with h1 h2
  · intro _; rfl
  · intro _; rfl
  · rintro (h | h)
    · exact absurd h h1
    · exact absurd h h2

theorem revealedState_endChecked (s : GameState) (i : Nat) (card : Card) :
    EndChecked (revealedState s i card) := checkGameEnd_endChecked _

theorem freshGameState_endChecked (cards : List Card) (fullWordList : String) :
    EndChecked (freshGameState cards fullWordList) := by
  unfold EndChecked freshGameState
  rintro (h | h) <;> simp at h

theorem freshGameState_json (cards : List Card) (fullWordList : String) :
    toJson (freshGameState cards fullWordList) = freshGameState cards fullWordList :=
  toJson_eq_self _ (by simp [freshGameState]) (by simp [freshGameState])

theorem Guesses.dec_plain (g : Guesses) (h1 : g ≠ .infinity) (h2 : g ≠ .token) :
    g.dec ≠ .infinity ∧ g.dec ≠ .token := by
  cases g <;> simp_all [Guesses.dec]

/-- A reveal of a state whose budget is a number or `null` leaves such a budget. -/
theorem revealedState_plain (s : GameState) (i : Nat) (card : Card)
    (h1 : s.guessesRemaining ≠ .infinity) (h2 : s.guessesRemaining ≠ .token) :
    (revealedState s i card).guessesRemaining ≠ .infinity ∧
    (revealedState s i card).guessesRemaining ≠ .token := by
  have hres : (resolveColor (markRevealed s i card) card.color).guessesRemaining ≠
        .infinity ∧
      (resolveColor (markRevealed s i card) card.color).guessesRemaining ≠ .token := by
    cases card.color <;> simp only [resolveColor] <;> (try split_ifs) <;>
      simp_all [markRevealed]
  unfold revealedState
  rw [checkGameEnd_guessesRemaining]
  unfold spendGuess
  dsimp only
  split_ifs <;> first | exact hres | exact Guesses.dec_plain _ hres.1 hres.2

theorem wellFormed_emptyWorld : WellFormed emptyWorld := by
  refine ⟨?_, ?_⟩
  · unfold EndChecked emptyWorld initialView
    rintro (h | h) <;> simp at h
  · intro doc h
    simp [emptyWorld] at h

theorem initializeGame_wellFormed (accept : Bool) (rand : Nat → Nat) (words : List String)
    (fullWordList : String) (w : World) (h : WellFormed w) :
    WellFormed (initializeGame accept rand words fullWordList w).world := by
  by_cases hok : (initializeGame accept rand words fullWordList w).error = none
  · obtain ⟨rfl, hlen, hfull⟩ := initializeGame_ok accept rand words fullWordList w hok
    rw [initializeGame_accepted rand words fullWordList w hlen hfull]
    refine ⟨freshGameState_endChecked _ _, ?_⟩
    intro doc hdoc
    simp only [Option.some.injEq] at hdoc
    subst hdoc
    exact ⟨freshGameState_endChecked _ _, freshGameState_json _ _, by simp [freshGameState]⟩
  · have hw : (initializeGame accept rand words fullWordList w).world = w := by
      unfold initializeGame at hok ⊢
      split_ifs with h1 h2
      · rfl
      · rfl
      · rw [if_neg h1, if_neg h2] at hok
        cases accept with
        | false => simp [updateSupabase]
        | true => simp [updateSupabase] at hok
    rw [hw]
    exact h

theorem revealCard_wellFormed (accept : Bool) (i : Nat) (w : World) (h : WellFormed w) :
    WellFormed (revealCard accept i w).world := by
  cases accept with
  | false => rw [revealCard_rejected]; exact h
  | true =>
    cases hroom : w.room with
    | none =>
      have : revealCard true i w = ⟨some .noGameState, w⟩ := by simp [revealCard, hroom]
      rw [this]; exact h
    | some doc =>
      cases hcard : doc.cards[i]? with
      | none =>
        have : revealCard true i w = ⟨some .typeError, w⟩ := by
          simp [revealCard, hroom, deserialize_cards, hcard]
        rw [this]; exact h
      | some card =>
        cases hrev : card.revealed with
        | true => rw [revealCard_revealed true w i doc card hroom hcard hrev]; exact h
        | false =>
          rw [revealCard_unrevealed w i doc card hroom hcard hrev]
          obtain ⟨_, hjson, htoken⟩ := h.2 doc hroom
          have hinf := (of_toJson_eq_self doc hjson).1
          have hd : deserializeGameState doc = doc := by
            cases doc
            simp_all [deserializeGameState]
          rw [hd]
          obtain ⟨hp1, hp2⟩ := revealedState_plain doc i card hinf htoken
          have hs : serializeGameState (revealedState doc i card) =
              revealedState doc i card := by
            generalize revealedState doc i card = t at hp1 ⊢
            cases t
            simp_all [serializeGameState]
          rw [hs]
          refine ⟨revealedState_endChecked _ _ _, ?_⟩
          intro d hdoc
          simp only [Option.some.injEq] at hdoc
          subst hdoc
          refine ⟨endChecked_congr _ _ rfl rfl rfl (revealedState_endChecked _ _ _),
            toJson_toJson _, ?_⟩
          show (revealedState doc i card).guessesRemaining.toJson ≠ .token
          rw [guesses_toJson_of_ne _ hp1]
          exact hp2

theorem guessesAllowed_toJson_ne_token (number : ClueNumber) :
    (guessesAllowed number).toJson ≠ .token := by
  unfold guessesAllowed
  split_ifs
  · simp [Guesses.toJson]
  · simp [Guesses.toJson]
  · simp [Guesses.toJson]
  · cases number <;> simp [ClueNumber.succ, Guesses.toJson]

theorem setClue_wellFormed (accept acceptHistory : Bool) (clue : String)
    (number : ClueNumber) (w : World) (h : WellFormed w) :
    WellFormed (setClue accept acceptHistory clue number w).world := by
  cases accept with
  | false => simpa [setClue] using h
  | true =>
    obtain ⟨hv, hr⟩ := setClue_accepted acceptHistory clue number w
    have he : EndChecked (toJson (clueDocument w.view clue number)) :=
      endChecked_congr w.view _ rfl rfl rfl h.1
    refine ⟨by rw [hv]; exact he, ?_⟩
    intro doc hdoc
    rw [hr] at hdoc
    simp only [Option.some.injEq] at hdoc
    subst hdoc
    exact ⟨he, toJson_toJson _, guessesAllowed_toJson_ne_token number⟩

theorem endTurn_wellFormed (accept : Bool) (w : World) (h : WellFormed w) :
    WellFormed (Codenames.endTurn accept w).world := by
  have he : EndChecked (endTurnState w.view) := endChecked_congr w.view _ rfl rfl rfl h.1
  cases accept with
  | false => exact ⟨he, h.2⟩
  | true =>
    refine ⟨he, ?_⟩
    intro doc hdoc
    have hd : doc = toJson (serializeGameState (endTurnState w.view)) := by
      simpa [Codenames.endTurn, updateSupabase] using hdoc.symm
    subst hd
    exact ⟨endChecked_congr _ _ rfl rfl rfl he, toJson_toJson _,
      by simp [toJson, serializeGameState, endTurnState, Guesses.toJson]⟩

theorem resetGame_wellFormed (accept acceptHistory acceptPlayers : Bool)
    (sortWords : List String → List String) (sortColors : List Color → List Color)
    (w : World) (h : WellFormed w) :
    WellFormed
      (resetGame accept acceptHistory acceptPlayers sortWords sortColors w).world := by
  unfold resetGame
  cases hroom : w.room with
  | none => exact h
  | some doc =>
    cases hf : doc.fullWordList with
    | none => simpa [hf] using h
    | some fullWordList =>
      have hfresh : ∀ cards d,
          some (toJson (freshGameState cards fullWordList)) = some d →
          EndChecked d ∧ toJson d = d ∧ d.guessesRemaining ≠ .token := by
        intro cards d hd
        simp only [Option.some.injEq] at hd
        subst hd
        rw [freshGameState_json]
        exact ⟨freshGameState_endChecked _ _, freshGameState_json _ _,
          by simp [freshGameState]⟩
      cases accept <;> cases acceptHistory <;> cases acceptPlayers <;>
        simp only [hf, Bool.not_true, Bool.not_false, Bool.false_eq_true, if_true, if_false]
      all_goals first
        | exact h
        | exact ⟨h.1, fun d hd => hfresh _ d hd⟩
        | exact ⟨freshGameState_endChecked _ _, fun d hd => hfresh _ d hd⟩

/-- Every world the store produces from its initial state, by any sequence of calls with
any outcome of writes and draws, is well formed. -/
theorem runCalls_wellFormed (calls : List Call) (w : World) (h : WellFormed w) :
    WellFormed (runCalls calls w) := by
  induction calls generalizing w with
  | nil => exact h
  | cons c calls ih =>
    apply ih
    show WellFormed (c.apply w)
    cases c with
    | init accept rand words fullWordList =>
      exact initializeGame_wellFormed accept rand words fullWordList w h
    | reveal accept i => exact revealCard_wellFormed accept i w h
    | clue accept acceptHistory text number =>
      exact setClue_wellFormed accept acceptHistory text number w h
    | endTurn accept => exact endTurn_wellFormed accept w h
    | reset accept acceptHistory acceptPlayers sortWords sortColors =>
      exact resetGame_wellFormed accept acceptHistory acceptPlayers sortWords sortColors w h

/-- In a world the store has produced, the room's state with `gameOver = false` has both
counters non-zero, holds no string marker, and is its own JSON image. -/
theorem running_room (calls : List Call) (doc : GameState)
    (hroom : (runCalls calls emptyWorld).room = some doc) (hover : doc.gameOver = false) :
    doc.redCardsLeft ≠ 0 ∧ doc.blueCardsLeft ≠ 0 ∧ deserializeGameState doc = doc ∧
    toJson doc = doc := by
  obtain ⟨hend, hjson, htoken⟩ :=
    (runCalls_wellFormed calls emptyWorld wellFormed_emptyWorld).2 doc hroom
  refine ⟨?_, ?_, ?_, hjson⟩
  · intro h
    have := hend (Or.inl h)
    rw [hover] at this
    exact absurd this (by decide)
  · intro h
    have := hend (Or.inr h)
    rw [hover] at this
    exact absurd this (by decide)
  · cases doc
    simp_all [deserializeGameState]

/-- C8: in every world the store produces (any sequence of `initializeGame`, `revealCard`,
`setClue`, `endTurn` and `resetGame` calls from the initial store), if the room's state has
`gameOver = false`, then whatever its guess budget and clue type, an accepted reveal of an
unrevealed neutral card passes the turn to the other team, clears `canGuess` and zeroes
`guessesRemaining`, and leaves both counters, `gameOver` and `winner` as they were; view
and room both hold that state, with the card marked revealed. -/
theorem revealCard_neutral (calls : List Call) (i : Nat) (doc : GameState) (card : Card)
    (hroom : (runCalls calls emptyWorld).room = some doc)
    (hcard : doc.cards[i]? = some card) (hrev : card.revealed = false)
    (hcol : card.color = .neutral) (hover : doc.gameOver = false) :
    ∃ next, revealCard true i (runCalls calls emptyWorld) =
        ⟨none, ⟨next, some next, (runCalls calls emptyWorld).history⟩⟩ ∧
      next.currentTurn = doc.currentTurn.other ∧
      next.canGuess = false ∧
      next.guessesRemaining = .finite 0 ∧
      next.redCardsLeft = doc.redCardsLeft ∧
      next.blueCardsLeft = doc.blueCardsLeft ∧
      next.gameOver = false ∧
      next.winner = doc.winner ∧
      next.cards = doc.cards.set i { card with revealed := true } := by
  obtain ⟨hred, hblue, _, hjson⟩ := running_room calls doc hroom hover
  obtain ⟨_, h1, h2, h3, h4, h5, h6, h7, h8, h9, _⟩ :=
    revealCard_neutral_of_nonzero (runCalls calls emptyWorld) i doc card hroom hcard hrev
      hcol hover hred hblue
  refine ⟨(revealCard true i (runCalls calls emptyWorld)).world.view, ?_, h1, h2, h3, h4,
    h5, h6, h7, h8⟩
  have hs : serializeGameState (revealedState (deserializeGameState doc) i card) =
      revealedState (deserializeGameState doc) i card := by
    apply serialize_of_finite _ 0
    exact (revealedState_neutral_fields (deserializeGameState doc) i card hcol).2.2
  have hj : toJson (revealedState (deserializeGameState doc) i card) =
      revealedState (deserializeGameState doc) i card := by
    apply toJson_eq_self
    · rw [(revealedState_neutral_fields (deserializeGameState doc) i card hcol).2.2]
      simp
    · rw [revealedState_currentClue]
      exact (of_toJson_eq_self doc hjson).2
  rw [revealCard_unrevealed _ i doc card hroom hcard hrev, hs, hj]

set_option maxRecDepth 8000 in
/-- C8 at a concrete input: a game is initialised and blue is given the clue `sea 2`; with
three guesses left, revealing the neutral card 17 passes the turn to red. -/
theorem revealCard_neutral_witness :
    ∃ next, (revealCard true 17 (runCalls
        [Call.init true id sampleWords sampleWordList, Call.clue true true "sea" (.finite 2)]
        emptyWorld)).world.view = next ∧
      next.currentTurn = Team.red ∧ next.canGuess = false ∧
      next.guessesRemaining = Guesses.finite 0 := by
  obtain ⟨next, h, h1, h2, h3, _⟩ := revealCard_neutral
    [Call.init true id sampleWords sampleWordList, Call.clue true true "sea" (.finite 2)]
    17 clueWorld.view ⟨"robot", Color.neutral, false⟩ (by decide) (by decide) rfl rfl
    (by decide)
  exact ⟨next, by rw [h], h1.trans (by decide), h2, h3⟩

/-- C12: in every world the store produces, if the room's state has `gameOver = false`, a
special clue and `currentTurn = T`, an accepted reveal of an unrevealed card of `T`'s colour
leaves `currentTurn = T`, `canGuess` and `guessesRemaining` as they were; the card is
marked revealed, `T`'s counter drops by one, the other counter, the clue, the clue type and
the word list are unchanged, and `gameOver` and `winner` change exactly when `T`'s counter
reaches zero (then `winner = T`). View and room both hold that state. -/
theorem revealCard_special_clue (calls : List Call) (i : Nat) (doc : GameState)
    (card : Card) (T : Team) (hroom : (runCalls calls emptyWorld).room = some doc)
    (hcard : doc.cards[i]? = some card) (hrev : card.revealed = false)
    (hcol : card.color = T.color) (hover : doc.gameOver = false)
    (hct : doc.clueType = some .special) (hturn : doc.currentTurn = T) :
    ∃ next, revealCard true i (runCalls calls emptyWorld) =
        ⟨none, ⟨next, some next, (runCalls calls emptyWorld).history⟩⟩ ∧
      next.currentTurn = T ∧
      next.canGuess = doc.canGuess ∧
      next.guessesRemaining = doc.guessesRemaining ∧
      next.cards = doc.cards.set i { card with revealed := true } ∧
      next.cardsLeft T = doc.cardsLeft T - 1 ∧
      next.cardsLeft T.other = doc.cardsLeft T.other ∧
      next.currentClue = doc.currentClue ∧
      next.clueType = doc.clueType ∧
      next.fullWordList = doc.fullWordList ∧
      (doc.cardsLeft T ≠ 1 → next.gameOver = false ∧ next.winner = doc.winner) ∧
      (doc.cardsLeft T = 1 → next.gameOver = true ∧ next.winner = some T) := by
  obtain ⟨hred, hblue, hd, hjson⟩ := running_room calls doc hroom hover
  have hother : doc.cardsLeft T.other ≠ 0 := by
    cases T
    · exact hblue
    · exact hred
  obtain ⟨_, h1, h2, h3, h4, h5, h6, h7, h8, h9, h10, h11, _⟩ :=
    revealCard_special_of_nonzero (runCalls calls emptyWorld) i doc card T hroom hcard hrev
      hcol hover hct hturn hother
  rw [hd] at h3
  refine ⟨(revealCard true i (runCalls calls emptyWorld)).world.view, ?_, h1, h2, h3, h4,
    h5, h6, h7, h8, h9, h10, h11⟩
  obtain ⟨_, _, htoken⟩ :=
    (runCalls_wellFormed calls emptyWorld wellFormed_emptyWorld).2 doc hroom
  have hinf := (of_toJson_eq_self doc hjson).1
  obtain ⟨hp1, hp2⟩ := revealedState_plain doc i card hinf htoken
  have hs : serializeGameState (revealedState doc i card) = revealedState doc i card := by
    generalize revealedState doc i card = t at hp1 ⊢
    cases t
    simp_all [serializeGameState]
  have hj : toJson (revealedState doc i card) = revealedState doc i card := by
    apply toJson_eq_self _ hp1
    rw [revealedState_currentClue]
    exact (of_toJson_eq_self doc hjson).2
  rw [revealCard_unrevealed _ i doc card hroom hcard hrev, hd, hs, hj]

set_option maxRecDepth 8000 in
/-- C12 at a concrete input: a game is initialised and blue is given the unlimited clue
`sea`; blue reveals its card 8 and keeps the turn, `canGuess` and the budget as they were. -/
theorem revealCard_special_clue_witness :
    ∃ doc next,
      (runCalls [Call.init true id sampleWords sampleWordList,
        Call.clue true true "sea" .infinity] emptyWorld).room = some doc ∧
      (revealCard true 8 (runCalls [Call.init true id sampleWords sampleWordList,
        Call.clue true true "sea" .infinity] emptyWorld)).world.view = next ∧
      doc.clueType = some ClueType.special ∧
      next.currentTurn = Team.blue ∧ next.canGuess = true ∧
      next.guessesRemaining = doc.guessesRemaining ∧ next.blueCardsLeft = 8 := by
  obtain ⟨next, h, h1, h2, h3, _, h5, _⟩ := revealCard_special_clue
    [Call.init true id sampleWords sampleWordList, Call.clue true true "sea" .infinity]
    8 (setClue true true "sea" .infinity startWorld).world.view
    ⟨"ocean", Color.blue, false⟩ Team.blue (by decide) (by decide) rfl rfl (by decide)
    (by decide) (by decide)
  exact ⟨_, next, by decide, by rw [h], by decide, h1, h2.trans (by decide), h3,
    h5.trans (by decide)⟩

end Codenames
